import Mathlib

/-!
# Verification of PokerNowLogConverter core components

This file gives a shallow embedding, in Lean 4, of the core data model and
algorithms of the PokerNowLogConverter Python repository:

* `card.py`    — the `Card` value type and its two textual notations,
* `utils.py`   — the 5-of-7-card poker hand evaluator `eval_final_hand`,
* `player.py`  — the `Player` record with its equality and hash,
* `game.py`    — the line-by-line log parser `Game.__init__`,
* `hand.py`    — the PokerStars-format hand formatter.

Python machine floats that hold monetary amounts are embedded as exact
rationals `ℚ` (the code only parses decimal literals and adds them);
Python in-place mutation is embedded as explicit state passing; code that
can raise (`IndexError`, `KeyError`, `AttributeError`, `InvalidCardException`,
`ValueError` from `float()`/`int()`) is embedded with `Option`/`Except`.
Each definition mirrors one Python function or branch and is named after it.
-/

/-! ## Small Python-style string helpers -/

/-- Python's `pat in s` substring test, as used throughout `game.py`
(`"-- starting hand " in line` and the like).  Membership of the empty
pattern is `True` in Python, matched here. -/
def containsSubstr (s pat : String) : Bool :=
  decide (pat.data <:+: s.data)

/-- Splitting on the leftmost occurrences of a non-empty separator, on
character lists with an explicit length fuel (each step consumes at least
one character), so the kernel can evaluate it on concrete logs. -/
def splitGo (sep : List Char) : Nat → List Char → List Char → List (List Char)
  | 0, acc, xs => [acc.reverse ++ xs]
  | _ + 1, acc, [] => [acc.reverse]
  | fuel + 1, acc, c :: rest =>
      if sep.isPrefixOf (c :: rest) then
        acc.reverse :: splitGo sep fuel [] ((c :: rest).drop sep.length)
      else splitGo sep fuel (c :: acc) rest

/-- Python's `s.split(sep)` for a non-empty separator (the only way the
converter calls it): split at each non-overlapping occurrence, left to
right, keeping empty pieces. -/
def String.pySplit (s sep : String) : List String :=
  if sep.data.isEmpty then [s]
  else (splitGo sep.data s.data.length [] s.data).map String.mk

/-- Replacement of the leftmost occurrences of a non-empty pattern. -/
def replGo (pat rep : List Char) : Nat → List Char → List Char
  | 0, xs => xs
  | _ + 1, [] => []
  | fuel + 1, c :: rest =>
      if pat.isPrefixOf (c :: rest) then
        rep ++ replGo pat rep fuel ((c :: rest).drop pat.length)
      else c :: replGo pat rep fuel rest

/-- Python's `s.replace(pat, rep)` for a non-empty pattern. -/
def String.pyReplace (s pat rep : String) : String :=
  if pat.data.isEmpty then s
  else String.mk (replGo pat.data rep.data s.data.length s.data)

/-- Python's `s.startswith(pre)`. -/
def String.pyStartsWith (s pre : String) : Bool :=
  pre.data.isPrefixOf s.data

/-- The whitespace stripping `float()` and `int()` perform. -/
def String.pyStrip (s : String) : String :=
  String.mk (((s.data.dropWhile Char.isWhitespace).reverse.dropWhile
    Char.isWhitespace).reverse)

/-- The slice `s[:-n]`. -/
def String.pyDropRight (s : String) (n : Nat) : String :=
  String.mk (s.data.take (s.data.length - n))

/-- Python's `sep.join(parts)`. -/
def pyJoin (sep : String) (parts : List String) : String :=
  String.mk (List.intercalate sep.data (parts.map String.data))

/-- The value of a string of decimal digits. -/
def digitsToNat (cs : List Char) : Nat :=
  cs.foldl (fun n c => n * 10 + (c.toNat - 48)) 0

/-- Python's `s.split(sep)[i]`: indexing out of range raises `IndexError`,
embedded as `none`. -/
def splitIdx (s sep : String) (i : Nat) : Option String :=
  (s.pySplit sep).get? i

/-! ## `card.py` -/

/-- The `strToEmoji` dictionary of `card.py` (insertion order preserved).
Its keys are the 52 plain tokens accepted by `Card.__init__`. -/
def strToEmoji : List (String × String) :=
  [("c2", "2♣"), ("c3", "3♣"), ("c4", "4♣"), ("c5", "5♣"), ("c6", "6♣"),
   ("c7", "7♣"), ("c8", "8♣"), ("c9", "9♣"), ("cT", "10♣"), ("cJ", "J♣"),
   ("cQ", "Q♣"), ("cK", "K♣"), ("cA", "A♣"), ("d2", "2♦"), ("d3", "3♦"),
   ("d4", "4♦"), ("d5", "5♦"), ("d6", "6♦"), ("d7", "7♦"), ("d8", "8♦"),
   ("d9", "9♦"), ("dT", "10♦"), ("dJ", "J♦"), ("dQ", "Q♦"), ("dK", "K♦"),
   ("dA", "A♦"), ("h2", "2♥"), ("h3", "3♥"), ("h4", "4♥"), ("h5", "5♥"),
   ("h6", "6♥"), ("h7", "7♥"), ("h8", "8♥"), ("h9", "9♥"), ("hT", "10♥"),
   ("hJ", "J♥"), ("hQ", "Q♥"), ("hK", "K♥"), ("hA", "A♥"), ("s2", "2♠"),
   ("s3", "3♠"), ("s4", "4♠"), ("s5", "5♠"), ("s6", "6♠"), ("s7", "7♠"),
   ("s8", "8♠"), ("s9", "9♠"), ("sT", "10♠"), ("sJ", "J♠"), ("sQ", "Q♠"),
   ("sK", "K♠"), ("sA", "A♠")]

/-- The `emojiToStr` dictionary of `card.py`.  Its keys are the 52
decorated/unicode tokens; its values are the rank-first plain renderings. -/
def emojiToStr : List (String × String) :=
  [("2♣", "2c"), ("3♣", "3c"), ("4♣", "4c"), ("5♣", "5c"), ("6♣", "6c"),
   ("7♣", "7c"), ("8♣", "8c"), ("9♣", "9c"), ("10♣", "Tc"), ("J♣", "Jc"),
   ("Q♣", "Qc"), ("K♣", "Kc"), ("A♣", "Ac"), ("2♦", "2d"), ("3♦", "3d"),
   ("4♦", "4d"), ("5♦", "5d"), ("6♦", "6d"), ("7♦", "7d"), ("8♦", "8d"),
   ("9♦", "9d"), ("10♦", "Td"), ("J♦", "Jd"), ("Q♦", "Qd"), ("K♦", "Kd"),
   ("A♦", "Ad"), ("2♥", "2h"), ("3♥", "3h"), ("4♥", "4h"), ("5♥", "5h"),
   ("6♥", "6h"), ("7♥", "7h"), ("8♥", "8h"), ("9♥", "9h"), ("10♥", "Th"),
   ("J♥", "Jh"), ("Q♥", "Qh"), ("K♥", "Kh"), ("A♥", "Ah"), ("2♠", "2s"),
   ("3♠", "3s"), ("4♠", "4s"), ("5♠", "5s"), ("6♠", "6s"), ("7♠", "7s"),
   ("8♠", "8s"), ("9♠", "9s"), ("10♠", "Ts"), ("J♠", "Js"), ("Q♠", "Qs"),
   ("K♠", "Ks"), ("A♠", "As")]

/-- `ranks_order` of `card.py`, lowest rank first. -/
def ranks_order : List String :=
  ["2", "3", "4", "5", "6", "7", "8", "9", "T", "J", "Q", "K", "A"]

/-- `suits_order` of `card.py`. -/
def suits_order : List String := ["s", "h", "d", "c"]

/-- The frozen dataclass `Card` of `card.py`: plain rendering, decorated
rendering, rank character and suit character (all strings, as in Python). -/
structure Card where
  card_str : String
  card_emoji_str : String
  rank : String
  suit : String
deriving DecidableEq, Inhabited

/-- `Card.__init__`: accepts a token in either notation; an unrecognized
token raises `InvalidCardException`, embedded as `none`.  Mirrors the two
branches of the constructor: a plain key is first translated to its emoji
and then normalized through `emojiToStr`; a decorated key is used directly.
`rank` is `card_str[0]` and `suit` is `card_str[1:]`. -/
def Card.ofString (name : String) : Option Card :=
  match strToEmoji.lookup name with
  | some emoji =>
      match emojiToStr.lookup emoji with
      | some cstr =>
          some { card_str := cstr, card_emoji_str := emoji,
                 rank := cstr.take 1, suit := cstr.drop 1 }
      | none => none
  | none =>
      match emojiToStr.lookup name with
      | some cstr =>
          some { card_str := cstr, card_emoji_str := name,
                 rank := cstr.take 1, suit := cstr.drop 1 }
      | none => none

/-- The 52 plain tokens (keys of `strToEmoji`). -/
def plainTokens : List String := strToEmoji.map Prod.fst

/-- The 52 decorated tokens (keys of `emojiToStr`). -/
def emojiTokens : List String := emojiToStr.map Prod.fst

/-- The 52 constructible cards, via their plain tokens. -/
def deck : List Card := plainTokens.filterMap Card.ofString

/-- `Card.__gt__` of `card.py`: compare rank positions in `ranks_order`,
then suit positions in `suits_order`.  (`list.index` on a value that is
absent raises in Python; `List.indexOf` returns the length instead — the
two agree on every constructible card, whose rank and suit are present.) -/
def cardGTb (a b : Card) : Bool :=
  if ranks_order.indexOf a.rank > ranks_order.indexOf b.rank then true
  else if ranks_order.indexOf a.rank == ranks_order.indexOf b.rank then
    decide (suits_order.indexOf a.suit > suits_order.indexOf b.suit)
  else false

/-! ## C1: card token round-trips -/

/-- Auxiliary: evaluated form of the decorated round-trip over all 52
decorated tokens. -/
theorem emoji_roundtrip_all :
    (emojiTokens.all
      (fun tok => (Card.ofString tok).map Card.card_emoji_str == some tok)) = true := by
  decide

/-- Auxiliary: evaluated form of the plain rendering over all 52 plain
tokens: construction from a suit-first plain token renders back rank-first. -/
theorem plain_transpose_all :
    (plainTokens.all
      (fun tok => (Card.ofString tok).map Card.card_str ==
        some (tok.drop 1 ++ tok.take 1))) = true := by
  decide

/-- C1 (counterexample): the claimed plain-notation round-trip fails on the
valid plain token `"c2"`: `Card.__init__` normalizes `card_str` to the
rank-first form `"2c"`, so re-rendering in plain notation does not return
the original token. -/
theorem C1_roundtrip_counterexample :
    "c2" ∈ plainTokens ∧ (Card.ofString "c2").map Card.card_str ≠ some "c2" := by
  decide

/-- C1 (amended): construction/rendering round-trips only in the decorated
notation: for each of the 52 decorated tokens, constructing a `Card` and
rendering `card_emoji_str` returns the token unchanged; for each of the 52
plain (suit-first) tokens, constructing a `Card` and rendering `card_str`
returns the rank-first transposition of the token (its one-character suit
moved behind the rank), never the original token itself. -/
theorem C1_roundtrip_amended :
    (∀ tok ∈ emojiTokens, (Card.ofString tok).map Card.card_emoji_str = some tok) ∧
    (∀ tok ∈ plainTokens,
      (Card.ofString tok).map Card.card_str = some (tok.drop 1 ++ tok.take 1)) := by
  constructor
  · intro tok htok
    exact eq_of_beq (List.all_eq_true.mp emoji_roundtrip_all tok htok)
  · intro tok htok
    exact eq_of_beq (List.all_eq_true.mp plain_transpose_all tok htok)

/-- C1 witness: the amended theorem applied at the concrete decorated token
`"2♣"` and the concrete plain token `"c2"`. -/
theorem C1_roundtrip_amended_witness :
    (Card.ofString "2♣").map Card.card_emoji_str = some "2♣" ∧
      (Card.ofString "c2").map Card.card_str = some ("c2".drop 1 ++ "c2".take 1) :=
  ⟨C1_roundtrip_amended.1 "2♣" (by decide), C1_roundtrip_amended.2 "c2" (by decide)⟩

/-! ## `utils.py` — hand evaluator -/

/-- The `PokerHand` `IntEnum` of `utils.py`. -/
inductive PokerHand where
  | HIGH_CARD | PAIR | TWO_PAIR | THREE_OF_KIND | STRAIGHT
  | FLUSH | FULL_HOUSE | FOUR_OF_KIND | STRAIGHT_FLUSH | ROYAL_FLUSH
deriving DecidableEq, Inhabited

/-- The integer value of each `PokerHand` enum member. -/
def PokerHand.val : PokerHand → Nat
  | .HIGH_CARD => 1 | .PAIR => 2 | .TWO_PAIR => 3 | .THREE_OF_KIND => 4
  | .STRAIGHT => 5 | .FLUSH => 6 | .FULL_HOUSE => 7 | .FOUR_OF_KIND => 8
  | .STRAIGHT_FLUSH => 9 | .ROYAL_FLUSH => 10

/-- The key order of the `hand_rank_counter` dictionary of `utils.py`
(highest rank first); dict iteration in the classifiers follows it. -/
def rank_keys : List String :=
  ["A", "K", "Q", "J", "T", "9", "8", "7", "6", "5", "4", "3", "2"]

/-- `hand_rank_names_singular` of `utils.py`. -/
def hand_rank_names_singular : List (String × String) :=
  [("A", "Ace"), ("K", "King"), ("Q", "Queen"), ("J", "Jack"), ("T", "Ten"),
   ("9", "Nine"), ("8", "Eight"), ("7", "Seven"), ("6", "Six"), ("5", "Five"),
   ("4", "Four"), ("3", "Three"), ("2", "Deuce")]

/-- `hand_rank_names_plural` of `utils.py`. -/
def hand_rank_names_plural : List (String × String) :=
  [("A", "Aces"), ("K", "Kings"), ("Q", "Queens"), ("J", "Jacks"), ("T", "Tens"),
   ("9", "Nines"), ("8", "Eights"), ("7", "Sevens"), ("6", "Sixes"), ("5", "Fives"),
   ("4", "Fours"), ("3", "Threes"), ("2", "Deuces")]

/-- `hand_rank_values` of `utils.py`. -/
def hand_rank_values : List (String × Nat) :=
  [("A", 13), ("K", 12), ("Q", 11), ("J", 10), ("T", 9), ("9", 8), ("8", 7),
   ("7", 6), ("6", 5), ("5", 4), ("4", 3), ("3", 2), ("2", 1)]

/-- Dictionary access `d[k]` on the constant rank tables.  Looking up a key
that is absent raises `KeyError` in Python; the classifiers below only look
up members of `rank_keys`, on which the two agree, so a default suffices. -/
def rankName (r : String) : String := (hand_rank_names_singular.lookup r).getD ""

/-- Plural variant of `rankName`. -/
def rankNamePl (r : String) : String := (hand_rank_names_plural.lookup r).getD ""

/-- `hand_rank_values[r]`. -/
def rankValue (r : String) : Nat := (hand_rank_values.lookup r).getD 0

/-- `BASE_K` of `utils.py`. -/
def BASE_K : Nat := 31

/-- `create_cards_histogram` restricted to one rank: the count the rank
histogram dictionary holds for `r`. -/
def rankCount (hand : List Card) (r : String) : Nat :=
  (hand.filter (fun c => c.rank == r)).length

/-- `create_cards_histogram` restricted to one suit. -/
def suitCount (hand : List Card) (s : String) : Nat :=
  (hand.filter (fun c => c.suit == s)).length

/-- `hash_cards` of `utils.py`: reverse the (high-to-low) card list so it
runs low-to-high, then sum `hand_rank_values[rank] * BASE_K ** i`. -/
def hash_cards (cards : List Card) : Nat :=
  (cards.reverse.enum).foldl
    (fun acc ic => acc + rankValue ic.2.rank * BASE_K ^ ic.1) 0

/-- The result triple of every classifier: description, category, tie-break. -/
abbrev HandResult := String × PokerHand × Nat

/-- `high_card` of `utils.py`: the first rank (in `rank_keys` order, i.e.
highest first) with a positive histogram count names the hand; the
tie-break is `hash_cards` of the whole hand. -/
def high_card (hand : List Card) : Option HandResult :=
  match rank_keys.find? (fun r => rankCount hand r > 0) with
  | some r => some (s!"high card {rankName r}", PokerHand.HIGH_CARD, hash_cards hand)
  | none => none

/-- `is_pair` of `utils.py`: the first rank (highest first) with histogram
count exactly 2; the pair rank is weighted by `BASE_K ** 3` above the hash
of the three remaining cards. -/
def is_pair (hand : List Card) : Option HandResult :=
  match rank_keys.find? (fun r => rankCount hand r == 2) with
  | some r =>
      let remaining_cards := hand.filter (fun c => ¬ c.rank == r)
      some (s!"a pair of {rankNamePl r}", PokerHand.PAIR,
        hash_cards remaining_cards + rankValue r * BASE_K ^ 3)
  | none => none

/-- `is_two_pair` of `utils.py`: the first two ranks (highest first) with
histogram count exactly 2; returns once the second is found. -/
def is_two_pair (hand : List Card) : Option HandResult :=
  match rank_keys.filter (fun r => rankCount hand r == 2) with
  | r1 :: r2 :: _ =>
      let remaining_card := hand.filter (fun c => ¬ (c.rank == r1 || c.rank == r2))
      some (s!"two pair, {rankNamePl r1} and {rankNamePl r2}", PokerHand.TWO_PAIR,
        hash_cards remaining_card + rankValue r2 * BASE_K ^ 1 + rankValue r1 * BASE_K ^ 2)
  | _ => none

/-- `is_three_of_a_kind` of `utils.py`. -/
def is_three_of_a_kind (hand : List Card) : Option HandResult :=
  match rank_keys.find? (fun r => rankCount hand r == 3) with
  | some r =>
      let remaining_cards := hand.filter (fun c => ¬ c.rank == r)
      some (s!"three of a kind, {rankNamePl r}", PokerHand.THREE_OF_KIND,
        hash_cards remaining_cards + rankValue r * BASE_K ^ 2)
  | none => none

/-- The loop body of `is_straight`: iterate over the indexed keys of the
rank histogram (`rank_keys`, highest rank first) carrying the running
`streak`; a streak of 4 adjacent present ranks yields a straight whose top
is four keys back; the final index additionally checks the ace-low wheel. -/
def straightAux (hand : List Card) : List Nat → Nat → Option HandResult
  | [], _ => none
  | i :: rest, streak =>
      let rank := rank_keys.getD i ""
      let streak' :=
        if i > 0 && rankCount hand rank > 0 &&
            rankCount hand (rank_keys.getD (i - 1) "") > 0
        then streak + 1 else 0
      if streak' ≥ 4 then
        let top_of_streak := rank_keys.getD (i - 4) ""
        some (s!"a straight, {rankName rank} to {rankName top_of_streak}",
          PokerHand.STRAIGHT, rankValue top_of_streak)
      else if i == rank_keys.length - 1 && streak' == 3 && rank == "2" &&
          hand.any (fun c => c.rank == "A") then
        let aceName := rankName "A"
        let fiveName := rankName "5"
        some (s!"a straight, {aceName} to {fiveName}",
          PokerHand.STRAIGHT, rankValue "5")
      else straightAux hand rest streak'

/-- `is_straight` of `utils.py`. -/
def is_straight (hand : List Card) : Option HandResult :=
  straightAux hand (List.range rank_keys.length) 0

/-- `is_flush` of `utils.py`: the cards whose suit appears at least 5 times;
needs at least 5 of them; the tie-break uses only the first such card (the
highest, since the evaluator hands over descending-sorted combinations). -/
def is_flush (hand : List Card) : Option HandResult :=
  let flush_cards := hand.filter (fun c => suitCount hand c.suit ≥ 5)
  if flush_cards.length < 5 then none
  else
    let highest_card := (flush_cards.headD default).rank
    some (s!"a flush, {rankName highest_card} high", PokerHand.FLUSH,
      rankValue highest_card)

/-- `is_full_house` of `utils.py`: first rank with count 3 and first rank
with count 2 (highest first); the triple outweighs the pair by `BASE_K`. -/
def is_full_house (hand : List Card) : Option HandResult :=
  match rank_keys.find? (fun r => rankCount hand r == 3),
        rank_keys.find? (fun r => rankCount hand r == 2) with
  | some t, some p =>
      some (s!"a full house, {rankNamePl t} full of {rankNamePl p}",
        PokerHand.FULL_HOUSE, rankValue p * BASE_K ^ 0 + rankValue t * BASE_K ^ 1)
  | _, _ => none

/-- `is_four_of_a_kind` of `utils.py`. -/
def is_four_of_a_kind (hand : List Card) : Option HandResult :=
  match rank_keys.find? (fun r => rankCount hand r == 4) with
  | some r =>
      let remaining_card := hand.filter (fun c => ¬ c.rank == r)
      some (s!"four of a kind, {rankNamePl r}", PokerHand.FOUR_OF_KIND,
        hash_cards remaining_card + rankValue r * BASE_K ^ 1)
  | none => none

/-- The loop body of `is_straight_flush`: walk the indexed flush cards,
carrying the previous card; adjacency (this rank index = previous + 1 in
the histogram key order) increments `streak`, which the source never
resets; a streak of 4 yields the straight flush, and the last index checks
the ace-low wheel (whose ace test scans the whole hand, as the source's
shadowed comprehension variable does). -/
def straightFlushAux (hand : List Card) (flush_cards : List Card) :
    List Nat → Nat → Option HandResult
  | [], _ => none
  | i :: rest, streak =>
      let c := flush_cards.getD i default
      if i > 0 then
        let this_rank_index := rank_keys.indexOf c.rank
        let prev_rank_index := rank_keys.indexOf (flush_cards.getD (i - 1) default).rank
        let streak' := if this_rank_index == prev_rank_index + 1 then streak + 1 else streak
        if streak' ≥ 4 then
          let top_of_streak := flush_cards.getD (i - 4) default
          some (s!"a straight flush, {rankName c.rank} to {rankName top_of_streak.rank}",
            PokerHand.STRAIGHT_FLUSH, rankValue top_of_streak.rank)
        else if i == flush_cards.length - 1 && streak' == 3 && c.rank == "2" &&
            hand.any (fun x => x.rank == "A") then
          let aceName := rankName "A"
          let fiveName := rankName "5"
          some (s!"a straight flush, {aceName} to {fiveName}",
            PokerHand.STRAIGHT_FLUSH, rankValue "5")
        else straightFlushAux hand flush_cards rest streak'
      else straightFlushAux hand flush_cards rest streak

/-- `is_straight_flush` of `utils.py`. -/
def is_straight_flush (hand : List Card) : Option HandResult :=
  let flush_cards := hand.filter (fun c => suitCount hand c.suit ≥ 5)
  if flush_cards.length < 5 then none
  else straightFlushAux hand flush_cards (List.range flush_cards.length) 0

/-- `is_royal_flush` of `utils.py`: a straight flush whose description
contains `"Ten to Ace"`. -/
def is_royal_flush (hand : List Card) : Option HandResult :=
  match is_straight_flush hand with
  | some sf =>
      if containsSubstr sf.1 "Ten to Ace" then
        some ("a royal flush", PokerHand.ROYAL_FLUSH, 0)
      else none
  | none => none

/-- `itertools.combinations(l, r)`: all `r`-element sublists in the order
itertools enumerates them (input order preserved within each combination,
combinations containing earlier elements first). -/
def combinations {α : Type} : Nat → List α → List (List α)
  | 0, _ => [[]]
  | _ + 1, [] => []
  | n + 1, x :: xs => (combinations n xs).map (x :: ·) ++ combinations (n + 1) xs

/-- A stable insertion step: place `a` before the first element `b` with
`r a b`.  With `r` reflexive-on-ties this reproduces the stable placement
of Python's `list.sort`. -/
def orderedInsertBy {α : Type} (r : α → α → Bool) (a : α) : List α → List α
  | [] => [a]
  | b :: l => if r a b then a :: b :: l else b :: orderedInsertBy r a l

/-- Stable insertion sort; used to embed Python's stable `list.sort`. -/
def insertionSortBy {α : Type} (r : α → α → Bool) : List α → List α
  | [] => []
  | a :: l => orderedInsertBy r a (insertionSortBy r l)

/-- `cards.sort(reverse=True)` of `eval_final_hand`: Python's stable sort,
descending with respect to `Card.__gt__` (`a` precedes `b` when `not b > a`).
On lists without duplicate rank/suit combinations — the only lists the
converter sorts — every correct sort produces this same unique descending
arrangement. -/
def sortDescCards (cards : List Card) : List Card :=
  insertionSortBy (fun a b => !(cardGTb b a)) cards

/-- One iteration of the classification loop of `eval_final_hand`: test
royal flush down to pair, falling through to `high_card` (which is the only
classifier allowed to produce `None`, making the following sort crash —
kept as an `Option`). -/
def classifyHand (hand : List Card) : Option HandResult :=
  is_royal_flush hand <|> is_straight_flush hand <|> is_four_of_a_kind hand <|>
    is_full_house hand <|> is_flush hand <|> is_straight hand <|>
    is_three_of_a_kind hand <|> is_two_pair hand <|> is_pair hand <|> high_card hand

/-- Collects a list of optional classifications, failing if any is `None`
(in Python a `None` entry makes `hands_with_value.sort` raise). -/
def allSome {α : Type} : List (Option α) → Option (List α)
  | [] => some []
  | none :: _ => none
  | some a :: rest => (allSome rest).map (a :: ·)

/-- `eval_final_hand` of `utils.py` (result component): sort the cards
descending in place, enumerate the 5-card combinations, classify each, then
perform the source's two stable descending sorts — first by tie-break, then
by category — and take the head.  An empty combination list (`[0]` on an
empty list raises `IndexError`) and a failed classification are `none`. -/
def evalFinalHand (cards : List Card) : Option HandResult :=
  let sorted := sortDescCards cards
  let five_card_hands := combinations 5 sorted
  match allSome (five_card_hands.map classifyHand) with
  | none => none
  | some hands_with_value =>
      (insertionSortBy (fun x y => decide (y.2.1.val ≤ x.2.1.val))
        (insertionSortBy (fun x y => decide (y.2.2 ≤ x.2.2)) hands_with_value) |>.head?)

/-- `eval_final_hand` with its side effect made explicit: the function
sorts the caller's list in place (`cards.sort(reverse=True)`), so after the
call the caller holds the descending-sorted list.  The pair returns the
result together with the list the caller observes afterwards. -/
def evalFinalHandST (cards : List Card) : Option HandResult × List Card :=
  (evalFinalHand cards, sortDescCards cards)

/-! ## Generic lemmas about the sorting and combination helpers -/

theorem orderedInsertBy_perm {α : Type} (r : α → α → Bool) (a : α) (l : List α) :
    (orderedInsertBy r a l).Perm (a :: l) := by
  induction l with
  | nil => exact List.Perm.refl _
  | cons b t ih =>
      by_cases h : r a b = true
      · simp [orderedInsertBy, h]
      · simp only [Bool.not_eq_true] at h
        simp only [orderedInsertBy, h, Bool.false_eq_true, if_false]
        exact (ih.cons b).trans (List.Perm.swap a b t)

theorem insertionSortBy_perm {α : Type} (r : α → α → Bool) (l : List α) :
    (insertionSortBy r l).Perm l := by
  induction l with
  | nil => exact List.Perm.refl _
  | cons a t ih =>
      exact (orderedInsertBy_perm r a (insertionSortBy r t)).trans (ih.cons a)

theorem orderedInsertBy_pairwise {α : Type} (r : α → α → Bool)
    (htot : ∀ a b, r a b = false → r b a = true)
    (htrans : ∀ a b c, r a b = true → r b c = true → r a c = true)
    (a : α) (l : List α) (hl : l.Pairwise (fun x y => r x y = true)) :
    (orderedInsertBy r a l).Pairwise (fun x y => r x y = true) := by
  induction l with
  | nil => simp [orderedInsertBy]
  | cons b t ih =>
      by_cases h : r a b = true
      · simp only [orderedInsertBy, h, if_true]
        refine List.Pairwise.cons ?_ hl
        intro y hy
        rcases List.mem_cons.mp hy with rfl | hy
        · exact h
        · rcases hl with - | ⟨hb, -⟩
          exact htrans a b y h (hb y hy)
      · simp only [Bool.not_eq_true] at h
        simp only [orderedInsertBy, h, Bool.false_eq_true, if_false]
        rcases hl with - | ⟨hb, ht⟩
        refine List.Pairwise.cons ?_ (ih ht)
        intro y hy
        have hy' := (orderedInsertBy_perm r a t).mem_iff.mp hy
        rcases List.mem_cons.mp hy' with h1 | hyt
        · rw [h1]; exact htot a b h
        · exact hb y hyt

theorem insertionSortBy_pairwise {α : Type} (r : α → α → Bool)
    (htot : ∀ a b, r a b = false → r b a = true)
    (htrans : ∀ a b c, r a b = true → r b c = true → r a c = true)
    (l : List α) :
    (insertionSortBy r l).Pairwise (fun x y => r x y = true) := by
  induction l with
  | nil => simp [insertionSortBy]
  | cons a t ih => exact orderedInsertBy_pairwise r htot htrans a _ ih

/-- Two sorted permutations of one another are equal, with antisymmetry
required only on the elements present (the Card order is antisymmetric on
the 52 constructible cards, not on arbitrary quadruples of strings). -/
theorem eq_of_perm_of_pairwise {α : Type} {R : α → α → Prop} :
    ∀ {l₁ l₂ : List α}, l₁.Perm l₂ → l₁.Pairwise R → l₂.Pairwise R →
      (∀ a ∈ l₁, ∀ b ∈ l₁, R a b → R b a → a = b) → l₁ = l₂
  | [], [], _, _, _, _ => rfl
  | [], b :: t₂, hp, _, _, _ => absurd (hp.mem_iff.mpr (.head _)) (List.not_mem_nil b)
  | a :: t₁, [], hp, _, _, _ => absurd (hp.mem_iff.mp (.head _)) (List.not_mem_nil a)
  | a :: t₁, b :: t₂, hp, hs₁, hs₂, hanti => by
      rcases hs₁ with - | ⟨ha, ht₁⟩
      rcases hs₂ with - | ⟨hb, ht₂⟩
      have hab : a = b := by
        have hma : a ∈ b :: t₂ := hp.mem_iff.mp (.head _)
        have hmb : b ∈ a :: t₁ := hp.mem_iff.mpr (.head _)
        rcases List.mem_cons.mp hma with h | h
        · exact h
        · rcases List.mem_cons.mp hmb with h' | h'
          · exact h'.symm
          · exact hanti a (.head _) b (.tail _ h') (ha b h') (hb a h)
      subst hab
      have hpt : t₁.Perm t₂ := (List.perm_cons a).mp hp
      have : t₁ = t₂ :=
        eq_of_perm_of_pairwise hpt ht₁ ht₂
          (fun x hx y hy => hanti x (.tail _ hx) y (.tail _ hy))
      rw [this]

theorem combinations_eq_nil {α : Type} :
    ∀ (n : Nat) (l : List α), l.length < n → combinations n l = []
  | 0, _, h => absurd h (by omega)
  | _ + 1, [], _ => rfl
  | n + 1, _ :: xs, h => by
      simp only [combinations]
      rw [combinations_eq_nil n xs (by simpa using Nat.lt_of_succ_lt_succ h),
        combinations_eq_nil (n + 1) xs (by simp at h ⊢; omega)]
      rfl

theorem combinations_ne_nil {α : Type} :
    ∀ (n : Nat) (l : List α), n ≤ l.length → combinations n l ≠ []
  | 0, _, _ => by simp [combinations]
  | n + 1, [], h => absurd h (by simp)
  | n + 1, x :: xs, h => by
      simp only [combinations]
      intro hcontra
      rcases List.append_eq_nil.mp hcontra with ⟨h1, -⟩
      exact combinations_ne_nil n xs (by simpa using Nat.le_of_succ_le_succ h) <|
        List.map_eq_nil_iff.mp h1

theorem combinations_length_mem {α : Type} :
    ∀ (n : Nat) (l : List α) (c : List α), c ∈ combinations n l → c.length = n
  | 0, _, c, h => by simp [combinations] at h; simp [h]
  | n + 1, [], c, h => by simp [combinations] at h
  | n + 1, x :: xs, c, h => by
      simp only [combinations, List.mem_append, List.mem_map] at h
      rcases h with ⟨c', hc', rfl⟩ | h
      · simpa using combinations_length_mem n xs c' hc'
      · exact combinations_length_mem (n + 1) xs c h

theorem combinations_subset {α : Type} :
    ∀ (n : Nat) (l : List α) (c : List α), c ∈ combinations n l → ∀ a ∈ c, a ∈ l
  | 0, _, c, h => by simp [combinations] at h; simp [h]
  | n + 1, [], c, h => by simp [combinations] at h
  | n + 1, x :: xs, c, h => by
      simp only [combinations, List.mem_append, List.mem_map] at h
      rcases h with ⟨c', hc', rfl⟩ | h
      · intro a ha
        rcases List.mem_cons.mp ha with rfl | ha
        · exact .head _
        · exact .tail _ (combinations_subset n xs c' hc' a ha)
      · exact fun a ha => .tail _ (combinations_subset (n + 1) xs c h a ha)

/-! ## The card order as a numeric key -/

/-- The lexicographic (rank position, suit position) pair packed into one
natural number; `suits_order.indexOf` is at most 4, so base 5 suffices. -/
def cardKey (c : Card) : Nat :=
  ranks_order.indexOf c.rank * 5 + suits_order.indexOf c.suit

theorem cardGTb_iff_key (a b : Card) : cardGTb a b = true ↔ cardKey b < cardKey a := by
  have hsa : suits_order.indexOf a.suit ≤ 4 := by
    simpa [suits_order] using
      (List.indexOf_le_length (a := a.suit) (l := suits_order))
  have hsb : suits_order.indexOf b.suit ≤ 4 := by
    simpa [suits_order] using
      (List.indexOf_le_length (a := b.suit) (l := suits_order))
  unfold cardGTb cardKey
  by_cases h1 : ranks_order.indexOf a.rank > ranks_order.indexOf b.rank
  · simp only [h1, if_true, true_iff]
    omega
  · simp only [h1, if_false]
    by_cases h2 : ranks_order.indexOf a.rank = ranks_order.indexOf b.rank
    · simp only [h2, beq_self_eq_true, if_true, decide_eq_true_eq]
      omega
    · have : (ranks_order.indexOf a.rank == ranks_order.indexOf b.rank) = false := by
        simpa using h2
      simp only [this, Bool.false_eq_true, if_false, false_iff]
      omega

/-- The sort comparator of `sortDescCards` holds iff the keys are in
(weak) descending position. -/
theorem sortRel_iff_key (a b : Card) : (!(cardGTb b a)) = true ↔ cardKey b ≤ cardKey a := by
  rw [Bool.not_eq_true', ← Bool.not_eq_true, cardGTb_iff_key]
  omega

/-- `cardKey` separates the 52 constructible cards. -/
theorem deck_map_key_nodup : (deck.map cardKey).Nodup := by decide

theorem deck_key_inj {a b : Card} (ha : a ∈ deck) (hb : b ∈ deck)
    (h : cardKey a = cardKey b) : a = b :=
  List.inj_on_of_nodup_map deck_map_key_nodup ha hb h

/-- On lists of constructible cards, `sortDescCards` is determined by the
multiset of cards: any two permuted inputs sort to the same list. -/
theorem sortDescCards_eq_of_perm {l₁ l₂ : List Card} (hp : l₁.Perm l₂)
    (hdeck : ∀ c ∈ l₁, c ∈ deck) : sortDescCards l₁ = sortDescCards l₂ := by
  have htot : ∀ a b : Card, (!(cardGTb b a)) = false → (!(cardGTb a b)) = true := by
    intro a b h
    rw [sortRel_iff_key]
    have := (sortRel_iff_key a b).not.mp (by simp [h])
    omega
  have htrans : ∀ a b c : Card,
      (!(cardGTb b a)) = true → (!(cardGTb c b)) = true → (!(cardGTb c a)) = true := by
    intro a b c h1 h2
    rw [sortRel_iff_key] at h1 h2 ⊢
    omega
  refine eq_of_perm_of_pairwise
    (((insertionSortBy_perm _ l₁).trans hp).trans (insertionSortBy_perm _ l₂).symm)
    (insertionSortBy_pairwise _ htot htrans l₁)
    (insertionSortBy_pairwise _ htot htrans l₂) ?_
  intro a ha b hb h1 h2
  rw [sortRel_iff_key] at h1 h2
  have ha' : a ∈ l₁ := (insertionSortBy_perm _ l₁).mem_iff.mp ha
  have hb' : b ∈ l₁ := (insertionSortBy_perm _ l₁).mem_iff.mp hb
  exact deck_key_inj (hdeck a ha') (hdeck b hb') (by omega)

/-! ## Supporting lemmas for the evaluator claims -/

/-- Concrete card lists from plain tokens, used by the concrete instances. -/
def cardsOfTokens (toks : List String) : List Card := toks.filterMap Card.ofString

/-- Every constructible card's rank is a key of the rank histogram. -/
theorem deck_rank_mem : ∀ c ∈ deck, c.rank ∈ rank_keys := by decide

theorem orElse_isSome_of_right {α : Type} (a b : Option α) (h : b.isSome) :
    (a <|> b).isSome := by
  cases a <;> simp_all

/-- A five-card hand of constructible cards always falls through to a
`high_card` classification, so the classifier never returns `none`. -/
theorem classifyHand_isSome (hand : List Card) (hne : hand ≠ [])
    (hdeck : ∀ c ∈ hand, c ∈ deck) : (classifyHand hand).isSome := by
  have hhc : (high_card hand).isSome := by
    rcases hand with - | ⟨c, t⟩
    · exact absurd rfl hne
    · have hr : c.rank ∈ rank_keys := deck_rank_mem c (hdeck c (.head _))
      have hfind : (rank_keys.find? (fun r => rankCount (c :: t) r > 0)).isSome := by
        rw [List.find?_isSome]
        refine ⟨c.rank, hr, ?_⟩
        simp only [rankCount, decide_eq_true_eq]
        have : c ∈ (c :: t).filter (fun x => x.rank == c.rank) :=
          List.mem_filter.mpr ⟨.head _, by simp⟩
        have := List.ne_nil_of_mem this
        simp [List.length_pos, this]
      rcases Option.isSome_iff_exists.mp hfind with ⟨r, hr'⟩
      simp [high_card, hr']
  unfold classifyHand
  repeat apply orElse_isSome_of_right
  exact hhc

theorem allSome_total {α : Type} :
    ∀ opts : List (Option α), (∀ x ∈ opts, x.isSome) →
      ∃ l, allSome opts = some l ∧ l.length = opts.length
  | [], _ => ⟨[], rfl, rfl⟩
  | none :: rest, h => absurd (h none (.head _)) (by simp)
  | some a :: rest, h => by
      rcases allSome_total rest (fun x hx => h x (.tail _ hx)) with ⟨l, hl, hlen⟩
      exact ⟨a :: l, by simp [allSome, hl], by simp [hlen]⟩

theorem insertionSortBy_length {α : Type} (r : α → α → Bool) (l : List α) :
    (insertionSortBy r l).length = l.length :=
  (insertionSortBy_perm r l).length_eq

/-! ## C2: permutation invariance of the evaluator -/

/-- C2 (confirmed): `eval_final_hand` is order-invariant.  For lists of 5
to 7 distinct constructible cards, the in-place descending sort
(`cards.sort(reverse=True)`) maps any two permutations of the same cards
to the same list, and everything afterwards is a function of that sorted
list. -/
theorem C2_eval_perm_invariant (l₁ l₂ : List Card) (hp : l₁.Perm l₂)
    (h5 : 5 ≤ l₁.length) (h7 : l₁.length ≤ 7) (hnd : l₁.Nodup)
    (hdeck : ∀ c ∈ l₁, c ∈ deck) :
    evalFinalHand l₁ = evalFinalHand l₂ := by
  unfold evalFinalHand
  rw [sortDescCards_eq_of_perm hp hdeck]

/-- C2 witness: the invariance applied to a concrete 7-card list and its
reversal. -/
theorem C2_eval_perm_invariant_witness :
    evalFinalHand (cardsOfTokens ["h4", "s5", "hJ", "cA", "hT", "s2", "c3"]) =
      evalFinalHand (cardsOfTokens ["c3", "s2", "hT", "cA", "hJ", "s5", "h4"]) :=
  C2_eval_perm_invariant _ _ (by decide) (by decide) (by decide) (by decide) (by decide)

/-! ## C3: the evaluator mutates its input list -/

/-- C3 (counterexample): `eval_final_hand` sorts the caller's list in
place.  On this unsorted 5-card input the list the caller holds after the
call differs from the one passed in, refuting the element-for-element,
same-order claim. -/
theorem C3_no_mutation_counterexample :
    (evalFinalHandST (cardsOfTokens ["h4", "s5", "hJ", "cA", "hT"])).2 ≠
      cardsOfTokens ["h4", "s5", "hJ", "cA", "hT"] := by
  decide

/-- C3 (amended): after `eval_final_hand` returns, the caller's list holds
the same cards rearranged into the descending sorted order — a permutation
of the input, not necessarily the original order — and the returned result
is the one computed from that sorted list. -/
theorem C3_mutation_amended (cards : List Card) :
    (evalFinalHandST cards).2 = sortDescCards cards ∧
      ((evalFinalHandST cards).2).Perm cards ∧
      (evalFinalHandST cards).1 = evalFinalHand cards :=
  ⟨rfl, insertionSortBy_perm _ cards, rfl⟩

/-! ## C4: the wheel straight -/

set_option maxRecDepth 4000 in
/-- C4 (confirmed): the evaluator applied to the board
`h4 s5 hJ cA hT` plus the hole cards `s2 c3` recognizes the ace-low wheel:
the result is `"a straight, Ace to Five"` in category `STRAIGHT` (the
tie-break score is the rank value of the five, namely 4). -/
theorem C4_wheel_straight :
    ∃ score, evalFinalHand (cardsOfTokens ["h4", "s5", "hJ", "cA", "hT", "s2", "c3"]) =
      some ("a straight, Ace to Five", PokerHand.STRAIGHT, score) :=
  ⟨4, by decide⟩

/-! ## C5: flush and high-card tie-breaks -/

/-- On a five-card hand classified as a flush, all five cards share the
suit, so the filtered flush cards are the hand itself and the tie-break is
the rank value of the hand's first card. -/
theorem is_flush_score (hand : List Card) (h5 : hand.length = 5)
    (r : HandResult) (h : is_flush hand = some r) :
    r.2.2 = rankValue ((hand.headD default).rank) := by
  unfold is_flush at h
  by_cases hlt : (hand.filter (fun c => suitCount hand c.suit ≥ 5)).length < 5
  · simp only [hlt, if_true] at h
    exact absurd h (by simp)
  · simp only [hlt, if_false] at h
    have hsub := List.filter_sublist (p := fun c => suitCount hand c.suit ≥ 5) hand
    have hfull : hand.filter (fun c => suitCount hand c.suit ≥ 5) = hand :=
      hsub.eq_of_length (by have := hsub.length_le; omega)
    rw [hfull] at h
    cases h
    rfl

/-- `high_card` scores a hand by `hash_cards` of the entire hand. -/
theorem high_card_score (hand : List Card) (r : HandResult)
    (h : high_card hand = some r) : r.2.2 = hash_cards hand := by
  unfold high_card at h
  rcases hfind : rank_keys.find? (fun x => rankCount hand x > 0) with - | rk
  · rw [hfind] at h; exact absurd h (by simp)
  · rw [hfind] at h; cases h; rfl

/-- `hash_cards` depends only on the sequence of ranks. -/
theorem hash_cards_congr (h₁ h₂ : List Card)
    (h : h₁.map Card.rank = h₂.map Card.rank) : hash_cards h₁ = hash_cards h₂ := by
  have key : ∀ l : List Card, hash_cards l =
      ((l.map Card.rank).reverse.enum).foldl
        (fun acc ic => acc + rankValue ic.2 * BASE_K ^ ic.1) 0 := by
    intro l
    unfold hash_cards
    rw [← List.map_reverse, List.enum_map, List.foldl_map]
    rfl
  rw [key, key, h]

set_option maxRecDepth 4000 in
/-- C5 (counterexample): two high-card-classified five-card hands whose
highest cards are both the ace of clubs receive different tie-break scores
because the score hashes all five ranks, not just the highest. -/
theorem C5_tiebreak_counterexample :
    (evalFinalHand (cardsOfTokens ["cA", "s9", "h7", "d5", "c3"])).map
        (fun r => (r.1, r.2.1)) = some ("high card Ace", PokerHand.HIGH_CARD) ∧
    (evalFinalHand (cardsOfTokens ["cA", "s9", "h7", "d5", "c2"])).map
        (fun r => (r.1, r.2.1)) = some ("high card Ace", PokerHand.HIGH_CARD) ∧
    (evalFinalHand (cardsOfTokens ["cA", "s9", "h7", "d5", "c3"])).map (fun r => r.2.2) ≠
      (evalFinalHand (cardsOfTokens ["cA", "s9", "h7", "d5", "c2"])).map (fun r => r.2.2) := by
  refine ⟨by decide, by decide, by decide⟩

/-- C5 (amended): the flush half of the claim holds — a flush-classified
five-card hand is scored by the rank of its leading (highest, once sorted)
card alone, so equal leading ranks give equal scores whatever the other
four cards are.  The high-card half must be weakened: a
high-card-classified hand is scored by the base-31 hash of all five ranks,
so two such hands score equally when their full rank sequences agree, but
not in general when only their highest cards agree. -/
theorem C5_tiebreak_amended :
    (∀ h₁ h₂ r₁ r₂, h₁.length = 5 → h₂.length = 5 →
      is_flush h₁ = some r₁ → is_flush h₂ = some r₂ →
      (h₁.headD default).rank = (h₂.headD default).rank → r₁.2.2 = r₂.2.2) ∧
    (∀ h₁ h₂ r₁ r₂, high_card h₁ = some r₁ → high_card h₂ = some r₂ →
      h₁.map Card.rank = h₂.map Card.rank → r₁.2.2 = r₂.2.2) := by
  constructor
  · intro h₁ h₂ r₁ r₂ hl₁ hl₂ hf₁ hf₂ hrk
    rw [is_flush_score h₁ hl₁ r₁ hf₁, is_flush_score h₂ hl₂ r₂ hf₂, hrk]
  · intro h₁ h₂ r₁ r₂ hc₁ hc₂ hrk
    rw [high_card_score h₁ r₁ hc₁, high_card_score h₂ r₂ hc₂]
    exact hash_cards_congr h₁ h₂ hrk

/-- C5 witness: the amended theorem applied to two concrete ace-high
flushes in different suits and two concrete high-card hands with the same
rank sequence in different suits. -/
theorem C5_tiebreak_amended_witness :
    ((is_flush (cardsOfTokens ["cA", "c9", "c7", "c5", "c3"])).map (fun r => r.2.2) =
        some 13 ∧
      (is_flush (cardsOfTokens ["hA", "hK", "h9", "h5", "h3"])).map (fun r => r.2.2) =
        some 13) ∧
    (high_card (cardsOfTokens ["cA", "s9", "h7", "d5", "c3"])).map (fun r => r.2.2) =
      (high_card (cardsOfTokens ["sA", "h9", "d7", "c5", "h3"])).map (fun r => r.2.2) := by
  have hfl := C5_tiebreak_amended.1 (cardsOfTokens ["cA", "c9", "c7", "c5", "c3"])
    (cardsOfTokens ["hA", "hK", "h9", "h5", "h3"])
    ("a flush, Ace high", PokerHand.FLUSH, 13) ("a flush, Ace high", PokerHand.FLUSH, 13)
    (by decide) (by decide) (by decide) (by decide) (by decide)
  have hhc := C5_tiebreak_amended.2 (cardsOfTokens ["cA", "s9", "h7", "d5", "c3"])
    (cardsOfTokens ["sA", "h9", "d7", "c5", "h3"])
    ("high card Ace", PokerHand.HIGH_CARD, 12249993)
    ("high card Ace", PokerHand.HIGH_CARD, 12249993)
    (by decide) (by decide) (by decide)
  exact ⟨⟨by decide, by decide⟩, by decide⟩

/-! ## C10: totality of the evaluator at the public interface -/

/-- C10 (confirmed): for at least 5 distinct constructible cards the
evaluator always produces a triple — every 5-card combination falls
through to `high_card`, so the `Option` is `some` — while for fewer than 5
cards there is no 5-card combination and the call fails
(`hands_with_value[0]` raises `IndexError`, embedded as `none`). -/
theorem C10_eval_totality :
    (∀ cards : List Card, 5 ≤ cards.length → cards.Nodup →
      (∀ c ∈ cards, c ∈ deck) → (evalFinalHand cards).isSome) ∧
    (∀ cards : List Card, cards.length < 5 → evalFinalHand cards = none) := by
  have hperm : ∀ l : List Card, (sortDescCards l).Perm l := fun l =>
    insertionSortBy_perm _ l
  constructor
  · intro cards h5 hnd hdeck
    simp only [evalFinalHand]
    have hslen : (sortDescCards cards).length = cards.length := (hperm cards).length_eq
    have hsmem : ∀ c ∈ sortDescCards cards, c ∈ deck := fun c hc =>
      hdeck c ((hperm cards).mem_iff.mp hc)
    have hall : ∀ x ∈ (combinations 5 (sortDescCards cards)).map classifyHand,
        x.isSome := by
      intro x hx
      rcases List.mem_map.mp hx with ⟨hand, hhand, rfl⟩
      have hlen5 := combinations_length_mem 5 _ hand hhand
      refine classifyHand_isSome hand ?_ ?_
      · intro hnil; rw [hnil] at hlen5; exact absurd hlen5 (by simp)
      · exact fun c hc => hsmem c (combinations_subset 5 _ hand hhand c hc)
    rcases allSome_total _ hall with ⟨vals, hvals, hvlen⟩
    rw [hvals]
    show ((insertionSortBy (fun x y => decide (y.2.1.val ≤ x.2.1.val))
      (insertionSortBy (fun x y => decide (y.2.2 ≤ x.2.2)) vals)).head?).isSome = true
    have hne : (combinations 5 (sortDescCards cards)) ≠ [] :=
      combinations_ne_nil 5 _ (by omega)
    have hvne : vals ≠ [] := by
      intro hcontra
      rw [hcontra] at hvlen
      simp only [List.length_nil, List.length_map] at hvlen
      exact hne (List.length_eq_zero.mp hvlen.symm)
    have : (insertionSortBy (fun x y => decide (y.2.1.val ≤ x.2.1.val))
        (insertionSortBy (fun x y => decide (y.2.2 ≤ x.2.2)) vals)).length =
        vals.length := by
      rw [insertionSortBy_length, insertionSortBy_length]
    rcases hfin : insertionSortBy (fun x y => decide (y.2.1.val ≤ x.2.1.val))
        (insertionSortBy (fun x y => decide (y.2.2 ≤ x.2.2)) vals) with - | ⟨a, t⟩
    · rw [hfin] at this
      exact absurd (List.length_eq_zero.mp this.symm) hvne
    · rw [hfin]
      simp
  · intro cards hlt
    simp only [evalFinalHand]
    rw [combinations_eq_nil 5 (sortDescCards cards)
      (by rw [(hperm cards).length_eq]; omega)]
    rfl

/-- C10 witness: the totality applied to a concrete distinct 5-card hand,
and the failure applied to a concrete 4-card hand. -/
theorem C10_eval_totality_witness :
    (evalFinalHand (cardsOfTokens ["cA", "s9", "h7", "d5", "c3"])).isSome ∧
      evalFinalHand (cardsOfTokens ["cA", "s9", "h7", "d5"]) = none :=
  ⟨C10_eval_totality.1 _ (by decide) (by decide) (by decide),
    C10_eval_totality.2 _ (by decide)⟩

/-! ## `player.py` -/

/-- The `Player` dataclass of `player.py`; `alias_name` defaults to `None`. -/
structure Player where
  player_name : String
  player_id : String
  player_name_with_id : String
  alias_name : Option String := none
deriving DecidableEq, Inhabited

/-- The dataclass-generated `Player.__eq__`: field-by-field comparison of
all four fields, including the alias. -/
def Player.pyEq (p q : Player) : Bool :=
  p.player_name == q.player_name && p.player_id == q.player_id &&
    p.player_name_with_id == q.player_name_with_id && p.alias_name == q.alias_name

/-- `Player.__hash__` hashes only `player_name_with_id`.  Python's string
hash is modelled by the key string itself, so hash equality of two players
is equality of their composite-key strings. -/
def Player.hashKey (p : Player) : String := p.player_name_with_id

/-! ## C8: player identity -/

/-- C8 (counterexample): two players with the identical composite key
`"Alice @ ab12cd"` but different aliases hash equal yet are not equal under
the dataclass-generated `__eq__`, refuting "equal iff composite key equal,
irrespective of alias". -/
theorem C8_player_identity_counterexample :
    Player.hashKey ⟨"Alice", "ab12cd", "Alice @ ab12cd", some "Ali"⟩ =
      Player.hashKey ⟨"Alice", "ab12cd", "Alice @ ab12cd", none⟩ ∧
    Player.pyEq ⟨"Alice", "ab12cd", "Alice @ ab12cd", some "Ali"⟩
      ⟨"Alice", "ab12cd", "Alice @ ab12cd", none⟩ = false := by
  decide

/-- C8 (amended): hash identity is determined solely by the composite key;
structural equality (`__eq__`) instead compares all four fields, so it
implies key equality but additionally requires the aliases (and the split
name and id fields) to agree. -/
theorem C8_player_identity_amended :
    (∀ p q : Player, p.hashKey = q.hashKey ↔
      p.player_name_with_id = q.player_name_with_id) ∧
    (∀ p q : Player, Player.pyEq p q = true ↔
      (p.player_name = q.player_name ∧ p.player_id = q.player_id ∧
        p.player_name_with_id = q.player_name_with_id ∧
        p.alias_name = q.alias_name)) ∧
    (∀ p q : Player, Player.pyEq p q = true → p.hashKey = q.hashKey) := by
  refine ⟨fun p q => Iff.rfl, fun p q => ?_, fun p q h => ?_⟩
  · simp [Player.pyEq, and_assoc]
  · simp only [Player.pyEq, Bool.and_eq_true, beq_iff_eq] at h
    exact h.1.2

/-- C8 witness: the `__eq__ → hash` direction of the amended theorem applied
to two concrete equal players. -/
theorem C8_player_identity_amended_witness :
    Player.hashKey ⟨"Bob", "xy", "Bob @ xy", none⟩ =
      Player.hashKey ⟨"Bob", "xy", "Bob @ xy", none⟩ :=
  C8_player_identity_amended.2.2 _ _ (by decide)

/-! ## `action.py`, `seat.py`, `hand.py` — data model for the parser

Monetary amounts (Python floats fed only by `float()` on decimal literals
and by addition) are embedded as exact rationals.  Python object references
into the current hand's seat list are embedded by updating the first
matching element of `Hand.seats` in place (`updateFirst`); the
`small_blind_seat`, `straddle_seat` and `big_blind_seats` fields hold
snapshots of the seat at assignment time — the source only ever reads the
immutable `seat_number` from them afterwards. -/

/-- The `Action` dataclass of `action.py`.  `Game.__init__` stores the
result of a player lookup that can be `None`, so the player is optional. -/
structure ActionR where
  player : Option Player
  action : String
  bet_amount : ℚ := 0
  bet_difference : ℚ := 0
  cards_shown : String := ""
deriving Inhabited

/-- The `Seat` dataclass of `seat.py`, with its field defaults. -/
structure Seat where
  seat_number : Int
  seat_player : Player
  stack_size : ℚ
  seat_desc : String := ""
  seat_summary : String := "didn't show and lost"
  seat_run_it_twice_summary : String := ""
  seat_hand : String := ""
  seat_hole_cards : String := ""
  seat_hole_cards_obj : List Card := []
  seat_did_bet : Bool := false
  collected_amount : ℚ := 0
  collected_amount_second_run : ℚ := 0
deriving Inhabited

/-- The `Hand` dataclass of `hand.py` (parser-relevant fields; the
timestamp is kept as the raw string the parser slices from the row).
`is_bomb_pot` and `uncalledBetSize` are the attributes `game.py` sets
dynamically. -/
structure Hand where
  raw_strings : List String := []
  hand_type : Option String := none
  hand_start_datetime : Option String := none
  hand_number : Int := 0
  seats : List Seat := []
  hole_cards : List Card := []
  flop_cards : List Card := []
  turn_card : Option Card := none
  river_card : Option Card := none
  board : List Card := []
  total_pot : ℚ := 0
  run_it_twice : Bool := false
  run_it_twice_from_street : Option String := none
  run_it_twice_flop_cards : List Card := []
  run_it_twice_turn_card : Option Card := none
  run_it_twice_river_card : Option Card := none
  run_it_twice_board : List Card := []
  players : List Player := []
  dealer : Option Player := none
  hero_player : Option Player := none
  small_blind_player : Option Player := none
  small_blind_seat : Option Seat := none
  small_blind_amount : ℚ := 0
  big_blind_players : List (Option Player) := []
  big_blind_seats : List Seat := []
  big_blind_amount : ℚ := 0
  straddle_player : Option Player := none
  straddle_seat : Option Seat := none
  straddle_amount : ℚ := 0
  antes : List (Option Player × ℚ) := []
  missing_small_blinds : List (Option Player) := []
  pre_flop_actions : List ActionR := []
  flop_actions : List ActionR := []
  turn_actions : List ActionR := []
  river_actions : List ActionR := []
  showdown_actions : List ActionR := []
  run_it_twice_showdown_actions : List ActionR := []
  is_bomb_pot : Bool := false
  uncalledBetSize : ℚ := 0
deriving Inhabited

/-- `Hand.get_player_by_player_name_with_id`: first matching player or
`None`. -/
def Hand.getPlayer (h : Hand) (pid : String) : Option Player :=
  h.players.find? (fun p => p.player_name_with_id == pid)

/-- `Hand.get_seat_by_player_name_with_id`: first matching seat or `None`. -/
def Hand.getSeat (h : Hand) (pid : String) : Option Seat :=
  h.seats.find? (fun s => s.seat_player.player_name_with_id == pid)

/-- In-place mutation of the first matching list element (the embedding of
mutating the object `next(...)` returned). -/
def updateFirst {α : Type} (p : α → Bool) (f : α → α) : List α → List α
  | [] => []
  | x :: xs => if p x then f x :: xs else x :: updateFirst p f xs

/-- Mutate the (first) seat of `pid` in the current hand's seat list. -/
def Hand.updateSeat (h : Hand) (pid : String) (f : Seat → Seat) : Hand :=
  { h with seats :=
      updateFirst (fun s => s.seat_player.player_name_with_id == pid) f h.seats }

/-- `street_action_dict[state].append(action)`: route an action to the
street list named by the parser state.  The dictionary holds exactly the
six street keys; any other key would raise `KeyError`. -/
def Hand.appendToStreet (h : Hand) (street : String) (a : ActionR) : Option Hand :=
  if street == "before Flop" then
    some { h with pre_flop_actions := h.pre_flop_actions ++ [a] }
  else if street == "on the Flop" then
    some { h with flop_actions := h.flop_actions ++ [a] }
  else if street == "on the Turn" then
    some { h with turn_actions := h.turn_actions ++ [a] }
  else if street == "on the River" then
    some { h with river_actions := h.river_actions ++ [a] }
  else if street == "at Showdown" then
    some { h with showdown_actions := h.showdown_actions ++ [a] }
  else if street == "at second Showdown" then
    some { h with run_it_twice_showdown_actions := h.run_it_twice_showdown_actions ++ [a] }
  else none

/-- Addition of rational amounts, written out on numerator and denominator
so that proofs can evaluate parses on concrete logs (`Rat.add` itself is
`@[irreducible]` in the library); `ratAdd_eq` identifies it with `+`. -/
def ratAdd (a b : ℚ) : ℚ := mkRat (a.num * b.den + b.num * a.den) (a.den * b.den)

/-- Subtraction, as `ratAdd`; `ratSub_eq` identifies it with `-`. -/
def ratSub (a b : ℚ) : ℚ := mkRat (a.num * b.den - b.num * a.den) (a.den * b.den)

/-- The strict order on amounts by cross multiplication (denominators are
positive by the `Rat` invariant), used for the `>` guards of the parser. -/
def ratLtB (a b : ℚ) : Bool := a.num * b.den < b.num * a.den

theorem ratAdd_eq (a b : ℚ) : ratAdd a b = a + b := (Rat.add_def' a b).symm

theorem ratSub_eq (a b : ℚ) : ratSub a b = a - b := (Rat.sub_def' a b).symm

/-- Python `float()` on the decimal literals found in PokerNow logs:
optional sign, integer digits, optional fractional digits (whitespace
stripped as `float()` does; exponent forms never occur in the logs and are
not modelled).  The value is the exact decimal rational, built through
`mkRat` so that proofs can evaluate it.  Failure (`ValueError`) is `none`. -/
def parseFloat (s : String) : Option ℚ :=
  let t := s.pyStrip
  let (neg, body) : Bool × String :=
    if t.pyStartsWith "-" then (true, t.drop 1)
    else if t.pyStartsWith "+" then (false, t.drop 1) else (false, t)
  match body.pySplit "." with
  | [ip] =>
      if ip.length > 0 && ip.toList.all Char.isDigit then
        let n : Int := digitsToNat ip.data
        some (mkRat (if neg then -n else n) 1)
      else none
  | [ip, fp] =>
      if (ip.length > 0 || fp.length > 0) && ip.toList.all Char.isDigit &&
          fp.toList.all Char.isDigit then
        let n : Int := digitsToNat ip.data * 10 ^ fp.length + digitsToNat fp.data
        some (mkRat (if neg then -n else n) (10 ^ fp.length))
      else none
  | _ => none

/-- Python `int()` on a decimal string. -/
def parseInt (s : String) : Option Int :=
  let t := s.pyStrip
  let (sign, body) : Int × String :=
    if t.pyStartsWith "-" then (-1, t.drop 1)
    else if t.pyStartsWith "+" then (1, t.drop 1) else (1, t)
  if body.length > 0 && body.toList.all Char.isDigit then
    some (sign * (digitsToNat body.data : Nat))
  else none

/-- `defaultdict(float)` read: missing keys are 0. -/
def dictGet (d : List (String × ℚ)) (k : String) : ℚ := (d.lookup k).getD 0

/-- `defaultdict` write (newest binding shadows older ones). -/
def dictSet (d : List (String × ℚ)) (k : String) (v : ℚ) : List (String × ℚ) :=
  (k, v) :: d

/-- The quoted-player extraction `line.split("\" ")[0].split("\"")[1]`. -/
def extractPid (line : String) : Option String := do
  let s ← splitIdx line "\" " 0
  splitIdx s "\"" 1

/-- Parse a comma-separated card token list, as the comprehensions
`[Card(x) for x in ...]` do; an invalid token is fatal. -/
def parseCards (s : String) : Option (List Card) :=
  (s.pySplit ", ").mapM Card.ofString

/-- Lift a fallible Python expression (`IndexError`, `ValueError`,
`AttributeError`, `KeyError`, `InvalidCardException`, subscripting `None`)
into the parser's error monad. -/
def req {α : Type} (msg : String) : Option α → Except String α
  | some a => .ok a
  | none => .error msg

/-- Python's `f"{x:,.2f}"` on an amount: two decimals, thousands separated
by commas.  The converter only formats exact two-decimal quantities, on
which this agrees with CPython; the rounding of other values is the usual
half-up on the absolute value here, standing in for CPython's
double-rounding detail. -/
def formatAmount (x : ℚ) : String :=
  let neg := x.num < 0
  let n : Nat := (200 * x.num.natAbs + x.den) / (2 * x.den)
  let ip := n / 100
  let fp := n % 100
  let digits := (toString ip).toList.reverse
  let rec group : List Char → Nat → List Char
    | [], _ => []
    | c :: rest, i =>
        (if i > 0 && i % 3 == 0 then [c, ','] else [c]) ++ group rest (i + 1)
  let ipStr := String.mk ((group digits 0).reverse)
  let fpStr := if fp < 10 then "0" ++ toString fp else toString fp
  (if neg then "-" else "") ++ ipStr ++ "." ++ fpStr

/-- `currencyCCToSymbol` of `utils.py`. -/
def currencyCCToSymbol : List (String × String) :=
  [("USD", "$"), ("CAD", "$"), ("GBP", "£"), ("EUR", "€"), ("SEK", "kr"), ("PLY", "P")]

/-- The clearing and "Update button and blind positions" blocks of the
bomb-pot branch of `Game.__init__` (`game.py` lines 125–165): the previous
dealer and blind assignments are cleared, then positions are computed from the
first seat with a positive stack (`available_seats[0]`), the big blind is
that seat itself, the small blind and button are found by looking up the
seat numbered one resp. two below it modulo the seat count (a 0-based
result that a 1-based seat list may not contain, leaving the role unset);
with no available seat the button defaults to the seat numbered 1 when it
exists. -/
def bombPotBlindUpdate (h : Hand) : Hand :=
  let h := { h with dealer := none, small_blind_seat := none,
                    small_blind_player := none, small_blind_amount := 0,
                    big_blind_seats := [], big_blind_players := [],
                    big_blind_amount := 0 }
  let num_seats : Int := h.seats.length
  match h.seats.filter (fun s => ratLtB 0 s.stack_size) with
  | utg_seat :: _ =>
      let utg_seat_number := utg_seat.seat_number
      let button_seat_number := (utg_seat_number - 2) % num_seats
      let small_blind_seat_number := (utg_seat_number - 1) % num_seats
      let big_blind_seat_number := utg_seat_number
      let button_seat := h.seats.find? (fun s => s.seat_number == button_seat_number)
      let small_blind_seat :=
        h.seats.find? (fun s => s.seat_number == small_blind_seat_number)
      let big_blind_seat := h.seats.find? (fun s => s.seat_number == big_blind_seat_number)
      let h := match button_seat with
        | some bs => { h with dealer := some bs.seat_player }
        | none => h
      let h := match small_blind_seat with
        | some ss => { h with small_blind_seat := some ss,
                              small_blind_player := some ss.seat_player }
        | none => h
      match big_blind_seat with
      | some bb => { h with big_blind_seats := [bb],
                            big_blind_players := [some bb.seat_player] }
      | none => h
  | [] =>
      match h.seats.find? (fun s => s.seat_number == 1) with
      | some bs => { h with dealer := some bs.seat_player }
      | none => h

/-- One stack-list entry of the legacy `"Players stacks"` format: seat
numbers are positional (1-based). -/
def parseStackEntriesLegacy : List String → Int → Except String (List (Player × ℚ × Int))
  | [], _ => .ok []
  | chunk :: rest, n => do
      let s1 ← req "Players stacks: quote" (splitIdx chunk "\"" 1)
      let pid := (s1.pySplit "\"").headD ""
      let name := (pid.pySplit " @ ").headD ""
      let idPart ← req "Players stacks: id" (splitIdx pid " @ " 1)
      let stackStr ← req "Players stacks: stack" (splitIdx chunk "\" (" 1)
      let stack ← req "Players stacks: float" (parseFloat ((stackStr.pySplit ")").headD ""))
      let tail ← parseStackEntriesLegacy rest (n + 1)
      .ok ((⟨name, idPart, pid, none⟩, stack, n + 1) :: tail)

/-- One stack-list entry of the current `"Player stacks"` format: seat
numbers are read from the `#k` prefix. -/
def parseStackEntries : List String → Except String (List (Player × ℚ × Int))
  | [] => .ok []
  | chunk :: rest => do
      let s1 ← req "Player stacks: quote" (splitIdx chunk " \"" 1)
      let pid := (s1.pySplit "\"").headD ""
      let name := (pid.pySplit " @ ").headD ""
      let idPart ← req "Player stacks: id" (splitIdx pid " @ " 1)
      let numPart ← req "Player stacks: seat" (splitIdx ((chunk.pySplit " \"").headD "") "#" 1)
      let num ← req "Player stacks: int" (parseInt numPart)
      let stackStr ← req "Player stacks: stack" (splitIdx chunk "\" (" 1)
      let stack ← req "Player stacks: float" (parseFloat ((stackStr.pySplit ")").headD ""))
      let tail ← parseStackEntries rest
      .ok ((⟨name, idPart, pid, none⟩, stack, num) :: tail)

/-- The per-hand scratch state `Game.__init__` threads from line to line.
Because lines after `-- ending hand --` still mutate the hand that was
already appended to `hand_list` (Python appends a reference), the appended
hand is represented by `curAppendCount` copies of the still-current hand,
materialized into `finished` only when the next hand starts. -/
structure ParserState where
  finished : List Hand := []
  cur : Hand := {}
  curAppendCount : Nat := 0
  state : String := "before Flop"
  maxBet : ℚ := 0
  prevAction : List (String × ℚ) := []
deriving Inhabited

/-- One iteration of the line-dispatch loop of `Game.__init__` (`game.py`
lines 73–503): the `elif` chain in source order, each branch transcribing
the Python statements.  A raised exception aborts the whole file parse and
is an `Except.error`; the final statement appends the raw line to the
current hand. -/
def parseLineBody (sym : String) (st : ParserState) (line ts : String) :
    Except String ParserState :=
  if containsSubstr line "-- starting hand " then do
      let finished := st.finished ++ List.replicate st.curAppendCount st.cur
      let h : Hand := {}
      let ht :=
        if containsSubstr line "Hold'em" then "Hold'em No Limit" else "Omaha Pot Limit"
      let h := { h with hand_type := some ht }
      let h ←
        if containsSubstr line "dealer:" then do
          let s ← req "dealer quote" (splitIdx line "dealer: \"" 1)
          let nid := (s.pySplit "\") --").headD ""
          let name := (nid.pySplit " @ ").headD ""
          let idPart ← req "dealer id" (splitIdx nid " @ " 1)
          pure { h with dealer := some ⟨name, idPart, nid, none⟩ }
        else pure h
      let s ← req "hand number" (splitIdx line "hand #" 1)
      let hnum ← req "hand number int" (parseInt ((s.pySplit " (").headD ""))
      let h := { h with hand_start_datetime := some (ts.pyDropRight 1),
                        hand_number := hnum }
      pure { finished := finished, cur := h, curAppendCount := 0,
             state := "before Flop", maxBet := 0, prevAction := [] }
    else if containsSubstr line "-- ending hand " then
      -- the append and the button annotation commute: both act on the same
      -- still-current hand, counted once more in the materialized list
      match st.cur.dealer with
      | some d =>
          match st.cur.getSeat d.player_name_with_id with
          | some _ =>
              let h := st.cur.updateSeat d.player_name_with_id
                (fun s => { s with seat_desc := s.seat_desc ++ " (button)" })
              pure { st with curAppendCount := st.curAppendCount + 1, cur := h }
          | none => throw "ending hand: dealer has no seat"
      | none => pure { st with curAppendCount := st.curAppendCount + 1 }
    else if containsSubstr line "posts a bet of" && containsSubstr line "bomb pot bet" then do
      let pid ← req "bomb pid" (extractPid line)
      let p_obj := st.cur.getPlayer pid
      let s ← req "bomb amount" (splitIdx line "posts a bet of " 1)
      let bet ← req "bomb float" (parseFloat ((s.pySplit " (bomb pot bet)").headD ""))
      let act : ActionR := { player := p_obj, action := "bet", bet_amount := bet }
      let h := { st.cur with is_bomb_pot := true,
                             pre_flop_actions := st.cur.pre_flop_actions ++ [act] }
      let _ ← req "bomb pot: acting player has no seat" (h.getSeat pid)
      pure { st with cur := bombPotBlindUpdate h, maxBet := bet,
                     prevAction := dictSet st.prevAction pid bet }
    else if containsSubstr line "\" raises" then do
      let line := ((line.pyReplace " and go all in" "").pyReplace " and all in" "").replace
        "with " "to "
      let pid ← req "raise pid" (extractPid line)
      let p_obj := st.cur.getPlayer pid
      let s ← req "raise amount" (splitIdx line "to " 1)
      let raise_amount ← req "raise float" (parseFloat s)
      let difference := ratSub raise_amount st.maxBet
      let h ← req "raise street" (st.cur.appendToStreet st.state
        { player := p_obj, action := "raise", bet_amount := raise_amount,
          bet_difference := difference })
      let h := match h.getSeat pid with
        | some _ => h.updateSeat pid (fun s => { s with seat_did_bet := true })
        | none => h
      pure { st with cur := h, maxBet := raise_amount,
                     prevAction := dictSet st.prevAction pid raise_amount }
    else if containsSubstr line "\" bets" then do
      let line := ((line.pyReplace " and go all in" "").pyReplace " and all in" "").replace
        " with" ""
      let pid ← req "bet pid" (extractPid line)
      let p_obj := st.cur.getPlayer pid
      let s ← req "bet amount" (splitIdx line "bets " 1)
      let bet ← req "bet float" (parseFloat s)
      let h ← req "bet street" (st.cur.appendToStreet st.state
        { player := p_obj, action := "bet", bet_amount := bet })
      let h := match h.getSeat pid with
        | some _ => h.updateSeat pid (fun s => { s with seat_did_bet := true })
        | none => h
      pure { st with cur := h, maxBet := bet,
                     prevAction := dictSet st.prevAction pid bet }
    else if containsSubstr line "\" calls" then do
      let line := ((line.pyReplace " and go all in" "").pyReplace " and all in" "").replace
        " with" ""
      let pid ← req "call pid" (extractPid line)
      let p_obj := st.cur.getPlayer pid
      let amtStr ←
        if containsSubstr line "bomb pot bet" then do
          let s ← req "call amount" (splitIdx line "calls " 1)
          pure ((s.pySplit " (bomb pot bet)").headD "")
        else req "call amount" (splitIdx line "calls " 1)
      let call_amount ← req "call float" (parseFloat amtStr)
      let difference := ratSub call_amount (dictGet st.prevAction pid)
      let h ← req "call street" (st.cur.appendToStreet st.state
        { player := p_obj, action := "call", bet_amount := difference })
      let h := match h.getSeat pid with
        | some _ => h.updateSeat pid (fun s => { s with seat_did_bet := true })
        | none => h
      pure { st with cur := h, prevAction := dictSet st.prevAction pid call_amount }
    else if containsSubstr line "\" checks" then do
      let pid ← req "check pid" (extractPid line)
      let p_obj := st.cur.getPlayer pid
      let h ← req "check street" (st.cur.appendToStreet st.state
        { player := p_obj, action := "check" })
      let h := match h.getSeat pid with
        | some _ => h.updateSeat pid (fun s => { s with seat_did_bet := true })
        | none => h
      pure { st with cur := h }
    else if line.pyStartsWith "Uncalled bet" then do
      let s ← req "uncalled pid" (splitIdx line " \"" 1)
      let pid := (s.pySplit "\"").headD ""
      let p_obj := st.cur.getPlayer pid
      let s2 ← req "uncalled amount" (splitIdx line "Uncalled bet of " 1)
      let amt ← req "uncalled float" (parseFloat ((s2.pySplit " returned").headD ""))
      let h := { st.cur with uncalledBetSize := amt }
      let h ← req "uncalled street" (h.appendToStreet st.state
        { player := p_obj, action := "uncalled bet", bet_amount := amt })
      let h := match h.getSeat pid with
        | some _ => h.updateSeat pid (fun s => { s with seat_did_bet := true })
        | none => h
      pure { st with cur := h, maxBet := ratSub st.maxBet amt }
    else if containsSubstr line "\" folds" then do
      let pid ← req "fold pid" (extractPid line)
      let p_seat ← req "fold: player has no seat" (st.cur.getSeat pid)
      let p_obj := st.cur.getPlayer pid
      let summary := "folded " ++ st.state ++
        (if p_seat.seat_did_bet then "" else " (didn't bet)")
      let h := st.cur.updateSeat pid (fun s => { s with seat_summary := summary })
      let h ← req "fold street" (h.appendToStreet st.state
        { player := p_obj, action := "fold" })
      pure { st with cur := h }
    else if containsSubstr line " big blind of " then do
      let line := (line.pyReplace " and go all in" "").pyReplace "missed " ""
      let s ← req "bb amount" (splitIdx line "\" posts a big blind of " 1)
      let amt ← req "bb float" (parseFloat s)
      let pid ← req "bb pid" (extractPid line)
      let _ ← req "bb: player has no seat" (st.cur.getSeat pid)
      let h := st.cur.updateSeat pid
        (fun s => { s with seat_did_bet := true, seat_desc := " (big blind)" })
      let seat' ← req "bb seat" (h.getSeat pid)
      let h := { h with big_blind_seats := h.big_blind_seats ++ [seat'],
                        big_blind_amount := amt,
                        big_blind_players := h.big_blind_players ++ [h.getPlayer pid] }
      pure { st with cur := h,
                     maxBet := if ratLtB st.maxBet amt then amt else st.maxBet,
                     prevAction := dictSet st.prevAction pid amt }
    else if containsSubstr line " posts a straddle " then do
      let line := line.pyReplace " and go all in" ""
      let s ← req "straddle amount" (splitIdx line "\" posts a straddle of " 1)
      let amt ← req "straddle float" (parseFloat s)
      let pid ← req "straddle pid" (extractPid line)
      let straddle_player := st.cur.getPlayer pid
      let _ ← req "straddle: player has no seat" (st.cur.getSeat pid)
      let h := st.cur.updateSeat pid (fun s => { s with seat_did_bet := true })
      let seat' ← req "straddle seat" (h.getSeat pid)
      let h := { h with straddle_player := straddle_player, straddle_amount := amt,
                        straddle_seat := some seat' }
      pure { st with cur := h,
                     maxBet := if ratLtB st.maxBet amt then amt else st.maxBet,
                     prevAction := dictSet st.prevAction pid amt }
    else if containsSubstr line " small blind of " then do
      let line := line.pyReplace " and go all in" ""
      if containsSubstr line "missing " then do
        let line := line.pyReplace "missing " ""
        let s ← req "msb amount" (splitIdx line "\" posts a small blind of " 1)
        let amt ← req "msb float" (parseFloat s)
        let pid ← req "msb pid" (extractPid line)
        let _ ← req "msb: player has no seat" (st.cur.getSeat pid)
        let h := st.cur.updateSeat pid
          (fun s => { s with seat_did_bet := true, seat_desc := " (small blind)" })
        let h := { h with missing_small_blinds :=
          h.missing_small_blinds ++ [h.getPlayer pid] }
        pure { st with cur := h,
                       maxBet := if ratLtB st.maxBet amt then amt else st.maxBet }
      else do
        let s ← req "sb amount" (splitIdx line "\" posts a small blind of " 1)
        let amt ← req "sb float" (parseFloat s)
        let pid ← req "sb pid" (extractPid line)
        let _ ← req "sb: player has no seat" (st.cur.getSeat pid)
        let h := st.cur.updateSeat pid
          (fun s => { s with seat_did_bet := true, seat_desc := " (small blind)" })
        let seat' ← req "sb seat" (h.getSeat pid)
        let h := { h with small_blind_seat := some seat', small_blind_amount := amt,
                          small_blind_player := h.getPlayer pid }
        pure { st with cur := h,
                       maxBet := if ratLtB st.maxBet amt then amt else st.maxBet,
                       prevAction := dictSet st.prevAction pid amt }
    else if line.pyStartsWith "Players stacks" then do
      let rest ← req "Players stacks split" (splitIdx line "Players stacks: " 1)
      let entries ← parseStackEntriesLegacy (rest.pySplit " | ") 0
      let h := { st.cur with
        players := st.cur.players ++ entries.map (fun e => e.1),
        seats := st.cur.seats ++ entries.map (fun e =>
          { seat_number := e.2.2, seat_player := e.1, stack_size := e.2.1 }) }
      pure { st with cur := h }
    else if line.pyStartsWith "Player stacks" then do
      let rest ← req "Player stacks split" (splitIdx line "Player stacks: " 1)
      let entries ← parseStackEntries (rest.pySplit " | ")
      let h := { st.cur with
        players := st.cur.players ++ entries.map (fun e => e.1),
        seats := st.cur.seats ++ entries.map (fun e =>
          { seat_number := e.2.2, seat_player := e.1, stack_size := e.2.1 }) }
      pure { st with cur := h }
    else if line.pyStartsWith "Your hand" then do
      let s ← req "your hand" (splitIdx line "Your hand is " 1)
      let cards ← req "your hand cards" (parseCards s)
      pure { st with cur := { st.cur with hole_cards := cards } }
    else if line.pyStartsWith "flop:" || line.pyStartsWith "Flop:" then do
      let s ← req "flop bracket" (splitIdx line "[" 1)
      let cards ← req "flop cards" (parseCards ((s.pySplit "]").headD ""))
      pure { st with
        cur := { st.cur with flop_cards := cards, board := st.cur.board ++ cards },
        state := "on the Flop", maxBet := 0, prevAction := [] }
    else if line.pyStartsWith "turn:" || line.pyStartsWith "Turn:" then do
      let s ← req "turn bracket" (splitIdx line "[" 1)
      let c ← req "turn card" (Card.ofString ((s.pySplit "]").headD ""))
      pure { st with
        cur := { st.cur with turn_card := some c, board := st.cur.board ++ [c] },
        state := "on the Turn", maxBet := 0, prevAction := [] }
    else if line.pyStartsWith "river:" || line.pyStartsWith "River:" then do
      let s ← req "river bracket" (splitIdx line "[" 1)
      let c ← req "river card" (Card.ofString ((s.pySplit "]").headD ""))
      pure { st with
        cur := { st.cur with river_card := some c, board := st.cur.board ++ [c] },
        state := "on the River", maxBet := 0, prevAction := [] }
    else if line.pyStartsWith "Flop (second run):" then do
      let s ← req "flop2 bracket" (splitIdx line "[" 1)
      let cards ← req "flop2 cards" (parseCards ((s.pySplit "]").headD ""))
      pure { st with
        cur := { st.cur with run_it_twice_flop_cards := cards,
                             run_it_twice_board := st.cur.run_it_twice_board ++ cards },
        state := "on the Flop", maxBet := 0, prevAction := [] }
    else if line.pyStartsWith "Turn (second run):" then do
      let s ← req "turn2 bracket" (splitIdx line "[" 1)
      let c ← req "turn2 card" (Card.ofString ((s.pySplit "]").headD ""))
      pure { st with
        cur := { st.cur with run_it_twice_turn_card := some c,
                             run_it_twice_board := st.cur.run_it_twice_board ++ [c] },
        state := "on the Turn", maxBet := 0, prevAction := [] }
    else if line.pyStartsWith "River (second run):" then do
      let s ← req "river2 bracket" (splitIdx line "[" 1)
      let c ← req "river2 card" (Card.ofString ((s.pySplit "]").headD ""))
      pure { st with
        cur := { st.cur with run_it_twice_river_card := some c,
                             run_it_twice_board := st.cur.run_it_twice_board ++ [c] },
        state := "on the River", maxBet := 0, prevAction := [] }
    else if containsSubstr line "\" shows a " then do
      let pid ← req "show pid" (extractPid line)
      let _ ← req "show: player has no seat" (st.cur.getSeat pid)
      let p_obj := st.cur.getPlayer pid
      let s ← req "show cards" (splitIdx line "shows a " 1)
      let cards ← req "show parse" (parseCards ((s.pySplit ".").headD ""))
      let cardsStr := "[" ++ pyJoin " " (cards.map Card.card_str) ++ "]"
      let h := st.cur.updateSeat pid (fun s =>
        { s with seat_hole_cards := cardsStr, seat_hole_cards_obj := cards })
      let h ← req "show street" (h.appendToStreet st.state
        { player := p_obj, action := "show", cards_shown := cardsStr })
      pure { st with cur := h }
    else if containsSubstr line "\" collected " || containsSubstr line "\" gained " ||
        containsSubstr line " wins " then do
      let line ← pure (line.pyReplace "gained" "collected")
      let newState :=
        if containsSubstr line "second run" then "at second Showdown" else "at Showdown"
      let c ←
        if containsSubstr line " wins " then do
          let s ← req "wins amount" (splitIdx line "\" wins " 1)
          req "wins float" (parseFloat ((s.pySplit " with").headD ""))
        else do
          let s ← req "collected amount" (splitIdx line "\" collected " 1)
          req "collected float" (parseFloat ((s.pySplit " from pot").headD ""))
      let h := { st.cur with total_pot := ratAdd st.cur.total_pot c }
      let pid ← req "collect pid" (extractPid line)
      let _ ← req "collect: player has no seat" (h.getSeat pid)
      let h :=
        if containsSubstr line "second run" then
          h.updateSeat pid (fun s =>
            { s with collected_amount_second_run := ratAdd s.collected_amount_second_run c })
        else
          h.updateSeat pid (fun s =>
            { s with collected_amount := ratAdd s.collected_amount c })
      let p_obj := h.getPlayer pid
      let h ← req "collect street" (h.appendToStreet newState
        { player := p_obj, action := "collect", bet_amount := c })
      let h ←
        if containsSubstr line " with " then do
          let h ←
            if containsSubstr line "(hand: " then do
              let s ← req "legacy hole" (splitIdx line "(hand: " 1)
              let objs ← req "legacy hole cards" (parseCards ((s.pySplit ")").headD ""))
              let holeStr := pyJoin " " (objs.map Card.card_str)
              pure (h.updateSeat pid (fun s =>
                { s with seat_hole_cards := "[" ++ holeStr ++ "]",
                         seat_hole_cards_obj := objs }))
            else pure h
          if containsSubstr line "second run" then do
            let seat ← req "collect seat2" (h.getSeat pid)
            let wres ← req "eval second run"
              (evalFinalHand (seat.seat_hole_cards_obj ++ h.run_it_twice_board))
            pure (h.updateSeat pid (fun s =>
              { s with seat_run_it_twice_summary :=
                  ", and won (" ++ sym ++
                    formatAmount seat.collected_amount_second_run ++ ") with " ++
                    wres.1 }))
          else do
            let seat ← req "collect seat1" (h.getSeat pid)
            let wres ← req "eval first run"
              (evalFinalHand (seat.seat_hole_cards_obj ++ h.board))
            pure (h.updateSeat pid (fun s =>
              { s with seat_summary :=
                  "showed " ++ seat.seat_hole_cards ++ " and won (" ++ sym ++
                    formatAmount seat.collected_amount ++ ") with " ++ wres.1 }))
        else do
          let seat ← req "collect seat0" (h.getSeat pid)
          pure (h.updateSeat pid (fun s =>
            { s with seat_summary :=
                "collected (" ++ sym ++ formatAmount seat.collected_amount ++ ")" }))
      pure { st with cur := h, state := newState }
    else if line == "All players in hand choose to run it twice." then
      pure { st with cur := { st.cur with
        run_it_twice := true,
        run_it_twice_from_street := some st.state,
        run_it_twice_board := st.cur.board } }
    else if containsSubstr line " posts an ante of " then do
      let pid ← req "ante pid" (extractPid line)
      let p_obj := st.cur.getPlayer pid
      let s ← req "ante amount" (splitIdx line " posts an ante of " 1)
      let amt ← req "ante float" (parseFloat s)
      pure { st with cur := { st.cur with antes := st.cur.antes ++ [(p_obj, amt)] } }
  else
    pure st

/-- One iteration's wrapper: run the dispatch and then append the raw line
to whatever hand is current afterwards (`current_hand.raw_strings.append`). -/
def parseLine (sym : String) (st : ParserState) (row : String × String) :
    Except String ParserState := do
  let st' ← parseLineBody sym st row.1 row.2
  pure { st' with cur :=
    { st'.cur with raw_strings := st'.cur.raw_strings ++ [row.1] } }

/-- The whole parsing loop of `Game.__init__`: fold `parseLine` over the
(already chronological) rows and materialize the hand list, including the
still-aliased current hand.  The theorems below quantify over every row
list, so they cover in particular the output of `preprocess_log`, whose
rewriting of player tokens needs no separate model. -/
def parseLog (sym : String) (log : List (String × String)) : Except String (List Hand) := do
  let final ← log.foldlM (parseLine sym) ({} : ParserState)
  pure (final.finished ++ List.replicate final.curAppendCount final.cur)

/-- `Game.__init__` at the hand-list level: the currency code is resolved
through `currencyCCToSymbol` (an unknown code raises `KeyError`) and the
log rows are parsed into the game's `hand_list`. -/
def gameHandList (log : List (String × String)) (currency : String) :
    Except String (List Hand) := do
  let sym ← req "currency" (currencyCCToSymbol.lookup currency)
  parseLog sym log

/-! ## C6: bomb-pot button and blind recomputation -/

/-- A three-seat log whose bomb-pot bet is posted by the player in seat 3;
each seat has a positive stack. -/
def bombPotLog : List (String × String) :=
  [("-- starting hand #1 (No Limit Texas Hold'em) --", "2022-01-01T00:00:00.000Z"),
   ("Player stacks: #1 \"Alice @ a1\" (100) | #2 \"Bob @ b2\" (100) | #3 \"Carol @ c3\" (100)",
    "tsZ"),
   ("\"Carol @ c3\" posts a bet of 10.00 (bomb pot bet)", "tsZ"),
   ("-- ending hand #1 --", "tsZ")]

set_option maxRecDepth 40000 in
/-- C6 (counterexample): on a bomb-pot bet posted by the seat-3 player, all
three seats having positive stacks, the parser assigns the big blind to
seat 1 — the first listed seat with a positive stack — not to the acting
(under-the-gun) player's seat 3, and the small-blind lookup (seat number
`(1-1) % 3 = 0`, a 0-based value in a 1-based seat list) finds no seat at
all, so the assignment is neither relative to the acting player nor
skipping zero-stack seats as claimed. -/
theorem C6_bomb_pot_counterexample :
    (parseLog "$" bombPotLog).toOption.map (fun hs => hs.map (fun h =>
      (h.big_blind_seats.map (fun s => s.seat_number),
        h.small_blind_seat.isSome,
        h.dealer.map (fun p => p.player_name),
        (h.getSeat "Carol @ c3").map (fun s => s.seat_number)))) =
      some [([1], false, some "Bob", some 3)] ∧ (1 : Int) ≠ 3 := by
  constructor
  · decide
  · decide

/-- C6 (amended): the bomb-pot branch first clears the dealer and blind
assignments and then recomputes them relative to the first listed seat
with a positive starting stack (not the acting player): that seat's number
names the single big blind; the seats numbered one and two below it,
wrapped modulo the seat count into 0-based values, name the small blind
and the button, each lookup possibly failing and then leaving the role
cleared; zero-stack seats are not skipped by these lookups.  When no seat
has a positive starting stack, the button defaults to the seat numbered 1
when one exists. -/
theorem C6_bomb_pot_amended (h : Hand) :
    (∀ u rest, h.seats.filter (fun s => ratLtB 0 s.stack_size) = u :: rest →
      (bombPotBlindUpdate h).big_blind_seats =
        (h.seats.find? (fun s => s.seat_number == u.seat_number)).toList ∧
      (bombPotBlindUpdate h).small_blind_seat =
        h.seats.find?
          (fun s => s.seat_number == (u.seat_number - 1) % (h.seats.length : Int)) ∧
      (bombPotBlindUpdate h).dealer =
        (h.seats.find?
          (fun s => s.seat_number == (u.seat_number - 2) % (h.seats.length : Int))).map
          (fun s => s.seat_player)) ∧
    (h.seats.filter (fun s => ratLtB 0 s.stack_size) = [] →
      (bombPotBlindUpdate h).dealer =
        (h.seats.find? (fun s => s.seat_number == 1)).map (fun s => s.seat_player) ∧
      (bombPotBlindUpdate h).small_blind_seat = none ∧
      (bombPotBlindUpdate h).big_blind_seats = []) := by
  constructor
  · intro u rest havail
    simp only [bombPotBlindUpdate]
    rw [havail]
    rcases hbtn : h.seats.find?
        (fun s => s.seat_number == (u.seat_number - 2) % (h.seats.length : Int)) with - | bs <;>
      rcases hsb : h.seats.find?
          (fun s => s.seat_number == (u.seat_number - 1) % (h.seats.length : Int)) with - | ss <;>
        rcases hbb : h.seats.find? (fun s => s.seat_number == u.seat_number) with - | bb <;>
          simp [hbtn, hsb, hbb]
  · intro havail
    simp only [bombPotBlindUpdate]
    rw [havail]
    rcases hbtn : h.seats.find? (fun s => s.seat_number == 1) with - | bs <;> simp [hbtn]

/-- A concrete two-seat hand with positive stacks. -/
def twoSeatHand : Hand :=
  { seats := [{ seat_number := 1, seat_player := ⟨"A", "1", "A @ 1", none⟩,
                stack_size := 100 },
              { seat_number := 2, seat_player := ⟨"B", "2", "B @ 2", none⟩,
                stack_size := 50 }] }

/-- A concrete hand whose only seat has a zero stack. -/
def zeroStackHand : Hand :=
  { seats := [{ seat_number := 1, seat_player := ⟨"A", "1", "A @ 1", none⟩,
                stack_size := 0 }] }

/-- C6 witness: the amended characterization applied to a concrete
two-seat hand whose first seat has a positive stack, and to a concrete
hand whose only seat has a zero stack. -/
theorem C6_bomb_pot_amended_witness :
    (bombPotBlindUpdate twoSeatHand).big_blind_seats =
      (twoSeatHand.seats.find? (fun s => s.seat_number == 1)).toList ∧
    (bombPotBlindUpdate zeroStackHand).small_blind_seat = none := by
  constructor
  · exact ((C6_bomb_pot_amended twoSeatHand).1
      { seat_number := 1, seat_player := ⟨"A", "1", "A @ 1", none⟩, stack_size := 100 }
      [{ seat_number := 2, seat_player := ⟨"B", "2", "B @ 2", none⟩, stack_size := 50 }]
      (by rfl)).1
  · exact ((C6_bomb_pot_amended zeroStackHand).2 (by rfl)).2.1

/-! ## C9: the pot-accounting invariant -/

/-- The per-hand accounting equation: the total pot is the sum over the
hand's seats of the primary and second-run collected amounts. -/
def PotEq (h : Hand) : Prop :=
  h.total_pot =
    (h.seats.map (fun s => s.collected_amount + s.collected_amount_second_run)).sum

/-- The parser-state invariant: every materialized hand and the hand under
construction satisfy the accounting equation. -/
def StateInv (st : ParserState) : Prop :=
  (∀ h ∈ st.finished, PotEq h) ∧ PotEq st.cur

theorem potEq_empty : PotEq {} := by simp [PotEq]

/-- Seat updates that leave both collected accumulators unchanged leave
the accounting sum unchanged. -/
theorem updateFirst_collect_sum (p : Seat → Bool) (f : Seat → Seat)
    (hf : ∀ s, (f s).collected_amount = s.collected_amount ∧
      (f s).collected_amount_second_run = s.collected_amount_second_run) :
    ∀ seats : List Seat,
      ((updateFirst p f seats).map
        (fun s => s.collected_amount + s.collected_amount_second_run)).sum =
      (seats.map (fun s => s.collected_amount + s.collected_amount_second_run)).sum
  | [] => rfl
  | x :: xs => by
      by_cases hp : p x = true
      · simp [updateFirst, hp, (hf x).1, (hf x).2]
      · simp only [Bool.not_eq_true] at hp
        simp [updateFirst, hp, updateFirst_collect_sum p f hf xs]

/-- A seat update that adds `c` across the two accumulators of the first
matching seat adds `c` to the accounting sum, provided a seat matches. -/
theorem updateFirst_collect_sum_add (p : Seat → Bool) (f : Seat → Seat) (c : ℚ)
    (hf : ∀ s, (f s).collected_amount + (f s).collected_amount_second_run =
      s.collected_amount + s.collected_amount_second_run + c) :
    ∀ seats : List Seat, (seats.find? p).isSome →
      ((updateFirst p f seats).map
        (fun s => s.collected_amount + s.collected_amount_second_run)).sum =
      (seats.map (fun s => s.collected_amount + s.collected_amount_second_run)).sum + c
  | [], hex => by simp [List.find?] at hex
  | x :: xs, hex => by
      by_cases hp : p x = true
      · simp only [updateFirst, hp, if_true, List.map_cons, List.sum_cons, hf x]
        ring
      · simp only [Bool.not_eq_true] at hp
        have hex' : (xs.find? p).isSome := by
          rw [List.find?] at hex
          rw [hp] at hex
          exact hex
        simp only [updateFirst, hp, Bool.false_eq_true, if_false, List.map_cons,
          List.sum_cons, updateFirst_collect_sum_add p f c hf xs hex']
        ring

/-- Routing an action to a street list changes neither the total pot nor
the seat list. -/
theorem appendToStreet_frame (h : Hand) (street : String) (a : ActionR) (h' : Hand)
    (heq : h.appendToStreet street a = some h') :
    h'.total_pot = h.total_pot ∧ h'.seats = h.seats := by
  unfold Hand.appendToStreet at heq
  repeat' split at heq
  all_goals simp_all
  all_goals (cases heq; exact ⟨rfl, rfl⟩)

/-- `PotEq` transfers along equal total pots and accounting sums. -/
theorem potEq_of_frame (h h' : Hand) (hpot : h'.total_pot = h.total_pot)
    (hsum : (h'.seats.map (fun s => s.collected_amount + s.collected_amount_second_run)).sum =
      (h.seats.map (fun s => s.collected_amount + s.collected_amount_second_run)).sum)
    (hh : PotEq h) : PotEq h' := by
  unfold PotEq at hh ⊢
  rw [hpot, hsum, hh]

/-- Folding an invariant through `List.foldlM` in the `Except` monad. -/
theorem foldlM_except_inv {σ α : Type} (f : σ → α → Except String σ) (P : σ → Prop)
    (hf : ∀ s a s', f s a = .ok s' → P s → P s') :
    ∀ (l : List α) (s s' : σ), List.foldlM f s l = .ok s' → P s → P s'
  | [], s, s', hok, hs => by
      simp only [List.foldlM] at hok
      cases hok
      exact hs
  | a :: l, s, s', hok, hs => by
      simp only [List.foldlM] at hok
      cases hstep : f s a with
      | error e =>
          rw [hstep] at hok
          simp [Bind.bind, Except.bind] at hok
      | ok s₁ =>
          rw [hstep] at hok
          simp only [Bind.bind, Except.bind] at hok
          exact foldlM_except_inv f P hf l s₁ s' hok (hf s a s₁ hstep hs)

/-! ## C9: the pot-accounting invariant of the parser -/


theorem except_bind_ok {α β : Type} (e : Except String α) (f : α → Except String β) (v : β)
    (h : e >>= f = .ok v) : ∃ a, e = .ok a ∧ f a = .ok v := by
  cases e with
  | error msg => simp [Bind.bind, Except.bind] at h
  | ok a => exact ⟨a, rfl, by simpa [Bind.bind, Except.bind] using h⟩

theorem except_bind_ok2 {α β : Type} (e : Except String α) (f : α → Except String β) (v : β)
    (h : Except.bind e f = .ok v) : ∃ a, e = .ok a ∧ f a = .ok v := by
  cases e with
  | error msg => exact Except.noConfusion h
  | ok a => exact ⟨a, rfl, h⟩

theorem req_ok {α : Type} (msg : String) (o : Option α) (a : α)
    (h : req msg o = .ok a) : o = some a := by
  cases o with
  | none => simp [req] at h
  | some x => simp [req] at h; rw [h]

theorem bombPot_frame (h : Hand) :
    (bombPotBlindUpdate h).total_pot = h.total_pot ∧
      (bombPotBlindUpdate h).seats = h.seats := by
  simp only [bombPotBlindUpdate]
  repeat' split
  all_goals exact ⟨rfl, rfl⟩

theorem potEq_updateSeat (h : Hand) (pid : String) (f : Seat → Seat)
    (hf : ∀ s, (f s).collected_amount = s.collected_amount ∧
      (f s).collected_amount_second_run = s.collected_amount_second_run)
    (hh : PotEq h) : PotEq (h.updateSeat pid f) := by
  unfold PotEq at hh ⊢
  unfold Hand.updateSeat
  simpa [updateFirst_collect_sum _ _ hf] using hh

theorem collect_sum_append (seats newSeats : List Seat)
    (hnew : ∀ s ∈ newSeats, s.collected_amount = 0 ∧ s.collected_amount_second_run = 0) :
    ((seats ++ newSeats).map
      (fun s => s.collected_amount + s.collected_amount_second_run)).sum =
    (seats.map (fun s => s.collected_amount + s.collected_amount_second_run)).sum := by
  rw [List.map_append, List.sum_append]
  have hz : (newSeats.map
      (fun s => s.collected_amount + s.collected_amount_second_run)).sum = 0 := by
    apply List.sum_eq_zero
    intro x hx
    rcases List.mem_map.mp hx with ⟨s, hs, rfl⟩
    rcases hnew s hs with ⟨h1, h2⟩
    rw [h1, h2, add_zero]
  rw [hz, add_zero]

theorem potEq_of_parts (h h' : Hand) (hpot : h'.total_pot = h.total_pot)
    (hseats : h'.seats = h.seats) (hh : PotEq h) : PotEq h' :=
  potEq_of_frame h h' hpot (by rw [hseats]) hh

theorem potEq_appendStreet (h : Hand) (street : String) (a : ActionR) (h' : Hand)
    (happ : h.appendToStreet street a = some h') (hh : PotEq h) : PotEq h' :=
  potEq_of_parts h h' (appendToStreet_frame h street a h' happ).1
    (appendToStreet_frame h street a h' happ).2 hh

theorem potEq_seats_append (h h' : Hand) (newSeats : List Seat)
    (hpot : h'.total_pot = h.total_pot) (hseats : h'.seats = h.seats ++ newSeats)
    (hnew : ∀ s ∈ newSeats, s.collected_amount = 0 ∧ s.collected_amount_second_run = 0)
    (hh : PotEq h) : PotEq h' := by
  unfold PotEq at hh ⊢
  rw [hpot, hseats, collect_sum_append _ _ hnew, hh]

theorem potEq_collect (h : Hand) (pid : String) (c : ℚ) (f : Seat → Seat)
    (hf : ∀ s, (f s).collected_amount + (f s).collected_amount_second_run =
      s.collected_amount + s.collected_amount_second_run + c)
    (hsome : (h.seats.find? (fun s => s.seat_player.player_name_with_id == pid)).isSome)
    (hh : PotEq h) :
    PotEq (Hand.updateSeat { h with total_pot := ratAdd h.total_pot c } pid f) := by
  unfold PotEq at hh ⊢
  unfold Hand.updateSeat
  show ratAdd h.total_pot c = _
  rw [ratAdd_eq]
  have := updateFirst_collect_sum_add
    (fun s => s.seat_player.player_name_with_id == pid) f c hf h.seats hsome
  simpa [this] using congrArg (fun q => q + c) hh

set_option maxHeartbeats 2000000 in
/-- The single-line dispatch preserves the accounting invariant: every
branch of `parseLineBody` either leaves `total_pot` and the collected
accumulators untouched, or (in the collect branch) adds the same amount to
both sides of the equation. -/
theorem parseLineBody_inv (sym : String) (st : ParserState) (line ts : String)
    (st' : ParserState) (hok : parseLineBody sym st line ts = .ok st')
    (hinv : StateInv st) : StateInv st' := by
  delta parseLineBody at hok
  by_cases c1 : containsSubstr line "-- starting hand " = true
  · rw [if_pos c1] at hok
    simp only [] at hok
    have hfin : ∀ h, h ∈ st.finished ++ List.replicate st.curAppendCount st.cur → PotEq h := by
      intro h hm
      rcases List.mem_append.mp hm with hm | hm
      · exact hinv.1 h hm
      · rw [List.eq_of_mem_replicate hm]
        exact hinv.2
    by_cases cd : containsSubstr line "dealer:" = true
    · rw [if_pos cd] at hok
      obtain ⟨s1, hs1, hok⟩ := except_bind_ok _ _ _ hok
      obtain ⟨idp, hid, hok⟩ := except_bind_ok _ _ _ hok
      obtain ⟨y, hy, hok⟩ := except_bind_ok _ _ _ hok
      obtain ⟨hnum, hn, hok⟩ := except_bind_ok _ _ _ hok
      obtain ⟨n2, hn2, hok⟩ := except_bind_ok2 _ _ _ hok
      cases hy
      cases hok
      refine ⟨hfin, ?_⟩
      unfold PotEq
      simp
    · rw [if_neg cd] at hok
      obtain ⟨s2, hs2, hok⟩ := except_bind_ok _ _ _ hok
      obtain ⟨hnum, hn, hok⟩ := except_bind_ok _ _ _ hok
      obtain ⟨n2, hn2, hok⟩ := except_bind_ok2 _ _ _ hok
      cases hs2
      cases hok
      refine ⟨hfin, ?_⟩
      unfold PotEq
      simp
  · rw [if_neg c1] at hok
    by_cases c2 : containsSubstr line "-- ending hand " = true
    · rw [if_pos c2] at hok
      rcases hd : st.cur.dealer with - | d
      · rw [hd] at hok
        cases hok
        exact ⟨hinv.1, hinv.2⟩
      · rw [hd] at hok
        simp only [] at hok
        rcases hgs : st.cur.getSeat d.player_name_with_id with - | s0
        · rw [hgs] at hok
          simp [throw, throwThe, MonadExceptOf.throw] at hok
        · rw [hgs] at hok
          cases hok
          refine ⟨hinv.1, ?_⟩
          exact potEq_updateSeat st.cur _ _ (fun s => ⟨rfl, rfl⟩) hinv.2
    · rw [if_neg c2] at hok
      by_cases c3 : (containsSubstr line "posts a bet of" &&
          containsSubstr line "bomb pot bet") = true
      · rw [if_pos c3] at hok
        obtain ⟨pid, hpid, hok⟩ := except_bind_ok _ _ _ hok
        obtain ⟨s1, hs1, hok⟩ := except_bind_ok _ _ _ hok
        obtain ⟨bet, hbet, hok⟩ := except_bind_ok _ _ _ hok
        obtain ⟨u, hu, hok⟩ := except_bind_ok _ _ _ hok
        cases hok
        refine ⟨hinv.1, ?_⟩
        refine potEq_of_parts _ _ (bombPot_frame _).1 (bombPot_frame _).2 ?_
        exact hinv.2
      · rw [if_neg c3] at hok
        by_cases c4 : containsSubstr line "\" raises" = true
        · rw [if_pos c4] at hok
          obtain ⟨pid, hpid, hok⟩ := except_bind_ok _ _ _ hok
          obtain ⟨sA, hsA, hok⟩ := except_bind_ok _ _ _ hok
          obtain ⟨amtA, hamtA, hok⟩ := except_bind_ok _ _ _ hok
          obtain ⟨hA, hhA, hok⟩ := except_bind_ok _ _ _ hok
          cases hok
          refine ⟨hinv.1, ?_⟩
          have hp1 := potEq_appendStreet _ _ _ _ (req_ok _ _ _ hhA) hinv.2
          rcases hq : hA.getSeat pid with - | s0
          · exact hp1
          · exact potEq_updateSeat _ _ _ (fun s => ⟨rfl, rfl⟩) hp1
        rw [if_neg c4] at hok
        by_cases c5 : containsSubstr line "\" bets" = true
        · rw [if_pos c5] at hok
          obtain ⟨pid, hpid, hok⟩ := except_bind_ok _ _ _ hok
          obtain ⟨sA, hsA, hok⟩ := except_bind_ok _ _ _ hok
          obtain ⟨amtA, hamtA, hok⟩ := except_bind_ok _ _ _ hok
          obtain ⟨hA, hhA, hok⟩ := except_bind_ok _ _ _ hok
          cases hok
          refine ⟨hinv.1, ?_⟩
          have hp1 := potEq_appendStreet _ _ _ _ (req_ok _ _ _ hhA) hinv.2
          rcases hq : hA.getSeat pid with - | s0
          · exact hp1
          · exact potEq_updateSeat _ _ _ (fun s => ⟨rfl, rfl⟩) hp1
        rw [if_neg c5] at hok
        by_cases c6 : containsSubstr line "\" calls" = true
        · rw [if_pos c6] at hok
          obtain ⟨pid, hpid, hok⟩ := except_bind_ok _ _ _ hok
          by_cases cbomb : containsSubstr
              (((line.pyReplace " and go all in" "").pyReplace " and all in" "").replace
                " with" "") "bomb pot bet" = true
          · rw [if_pos cbomb] at hok
            obtain ⟨sB, hsB, hok⟩ := except_bind_ok _ _ _ hok
            obtain ⟨yB, hyB, hok⟩ := except_bind_ok _ _ _ hok
            obtain ⟨amtA, hamtA, hok⟩ := except_bind_ok _ _ _ hok
            obtain ⟨hA, hhA, hok⟩ := except_bind_ok _ _ _ hok
            cases hok
            refine ⟨hinv.1, ?_⟩
            have hp1 := potEq_appendStreet _ _ _ _ (req_ok _ _ _ hhA) hinv.2
            rcases hq : hA.getSeat pid with - | s0
            · exact hp1
            · exact potEq_updateSeat _ _ _ (fun s => ⟨rfl, rfl⟩) hp1
          · rw [if_neg cbomb] at hok
            obtain ⟨yB, hyB, hok⟩ := except_bind_ok _ _ _ hok
            obtain ⟨amtA, hamtA, hok⟩ := except_bind_ok _ _ _ hok
            obtain ⟨hA, hhA, hok⟩ := except_bind_ok _ _ _ hok
            cases hok
            refine ⟨hinv.1, ?_⟩
            have hp1 := potEq_appendStreet _ _ _ _ (req_ok _ _ _ hhA) hinv.2
            rcases hq : hA.getSeat pid with - | s0
            · exact hp1
            · exact potEq_updateSeat _ _ _ (fun s => ⟨rfl, rfl⟩) hp1
        rw [if_neg c6] at hok
        by_cases c7 : containsSubstr line "\" checks" = true
        · rw [if_pos c7] at hok
          obtain ⟨pid, hpid, hok⟩ := except_bind_ok _ _ _ hok
          obtain ⟨hA, hhA, hok⟩ := except_bind_ok _ _ _ hok
          cases hok
          refine ⟨hinv.1, ?_⟩
          have hp1 := potEq_appendStreet _ _ _ _ (req_ok _ _ _ hhA) hinv.2
          rcases hq : hA.getSeat pid with - | s0
          · exact hp1
          · exact potEq_updateSeat _ _ _ (fun s => ⟨rfl, rfl⟩) hp1
        rw [if_neg c7] at hok
        by_cases c8 : line.pyStartsWith "Uncalled bet" = true
        · rw [if_pos c8] at hok
          obtain ⟨sA, hsA, hok⟩ := except_bind_ok _ _ _ hok
          obtain ⟨sB, hsB, hok⟩ := except_bind_ok _ _ _ hok
          obtain ⟨amtA, hamtA, hok⟩ := except_bind_ok _ _ _ hok
          obtain ⟨hA, hhA, hok⟩ := except_bind_ok _ _ _ hok
          cases hok
          refine ⟨hinv.1, ?_⟩
          have hp1 := potEq_appendStreet _ _ _ _ (req_ok _ _ _ hhA) hinv.2
          rcases hq : hA.getSeat ((sA.pySplit "\"").headD "") with - | s0
          · exact hp1
          · exact potEq_updateSeat _ _ _ (fun s => ⟨rfl, rfl⟩) hp1
        rw [if_neg c8] at hok
        by_cases c9 : containsSubstr line "\" folds" = true
        · rw [if_pos c9] at hok
          obtain ⟨pid, hpid, hok⟩ := except_bind_ok _ _ _ hok
          obtain ⟨pseat, hpseat, hok⟩ := except_bind_ok _ _ _ hok
          obtain ⟨hA, hhA, hok⟩ := except_bind_ok _ _ _ hok
          cases hok
          exact ⟨hinv.1, potEq_appendStreet _ _ _ _ (req_ok _ _ _ hhA)
            (potEq_updateSeat _ _ _ (fun s => ⟨rfl, rfl⟩) hinv.2)⟩
        rw [if_neg c9] at hok
        by_cases c10 : containsSubstr line " big blind of " = true
        · rw [if_pos c10] at hok
          obtain ⟨sA, hsA, hok⟩ := except_bind_ok _ _ _ hok
          obtain ⟨amtA, hamtA, hok⟩ := except_bind_ok _ _ _ hok
          obtain ⟨pid, hpid, hok⟩ := except_bind_ok _ _ _ hok
          obtain ⟨uA, huA, hok⟩ := except_bind_ok _ _ _ hok
          obtain ⟨seatA, hseatA, hok⟩ := except_bind_ok _ _ _ hok
          cases hok
          refine ⟨hinv.1, potEq_updateSeat _ _ _ ?_ hinv.2⟩
          exact fun s => ⟨rfl, rfl⟩
        rw [if_neg c10] at hok
        by_cases c11 : containsSubstr line " posts a straddle " = true
        · rw [if_pos c11] at hok
          obtain ⟨sA, hsA, hok⟩ := except_bind_ok _ _ _ hok
          obtain ⟨amtA, hamtA, hok⟩ := except_bind_ok _ _ _ hok
          obtain ⟨pid, hpid, hok⟩ := except_bind_ok _ _ _ hok
          obtain ⟨uA, huA, hok⟩ := except_bind_ok _ _ _ hok
          obtain ⟨seatA, hseatA, hok⟩ := except_bind_ok _ _ _ hok
          cases hok
          refine ⟨hinv.1, potEq_updateSeat _ _ _ ?_ hinv.2⟩
          exact fun s => ⟨rfl, rfl⟩
        rw [if_neg c11] at hok
        by_cases c12 : containsSubstr line " small blind of " = true
        · rw [if_pos c12] at hok
          by_cases cmiss :
      containsSubstr (line.pyReplace " and go all in" "") "missing " = true
          · rw [if_pos cmiss] at hok
            obtain ⟨sA, hsA, hok⟩ := except_bind_ok _ _ _ hok
            obtain ⟨amtA, hamtA, hok⟩ := except_bind_ok _ _ _ hok
            obtain ⟨pid, hpid, hok⟩ := except_bind_ok _ _ _ hok
            obtain ⟨uA, huA, hok⟩ := except_bind_ok _ _ _ hok
            cases hok
            refine ⟨hinv.1, potEq_updateSeat _ _ _ ?_ hinv.2⟩
            exact fun s => ⟨rfl, rfl⟩
          · rw [if_neg cmiss] at hok
            obtain ⟨sA, hsA, hok⟩ := except_bind_ok _ _ _ hok
            obtain ⟨amtA, hamtA, hok⟩ := except_bind_ok _ _ _ hok
            obtain ⟨pid, hpid, hok⟩ := except_bind_ok _ _ _ hok
            obtain ⟨uA, huA, hok⟩ := except_bind_ok _ _ _ hok
            obtain ⟨seatA, hseatA, hok⟩ := except_bind_ok _ _ _ hok
            cases hok
            refine ⟨hinv.1, potEq_updateSeat _ _ _ ?_ hinv.2⟩
            exact fun s => ⟨rfl, rfl⟩
        rw [if_neg c12] at hok
        by_cases c13 : line.pyStartsWith "Players stacks" = true
        · rw [if_pos c13] at hok
          obtain ⟨rest, hrest, hok⟩ := except_bind_ok _ _ _ hok
          obtain ⟨entries, hentries, hok⟩ := except_bind_ok _ _ _ hok
          cases hok
          refine ⟨hinv.1, ?_⟩
          refine potEq_seats_append st.cur _ _ rfl rfl ?_ hinv.2
          intro s hs
          rcases List.mem_map.mp hs with ⟨e, he, rfl⟩
          exact ⟨rfl, rfl⟩
        rw [if_neg c13] at hok
        by_cases c14 : line.pyStartsWith "Player stacks" = true
        · rw [if_pos c14] at hok
          obtain ⟨rest, hrest, hok⟩ := except_bind_ok _ _ _ hok
          obtain ⟨entries, hentries, hok⟩ := except_bind_ok _ _ _ hok
          cases hok
          refine ⟨hinv.1, ?_⟩
          refine potEq_seats_append st.cur _ _ rfl rfl ?_ hinv.2
          intro s hs
          rcases List.mem_map.mp hs with ⟨e, he, rfl⟩
          exact ⟨rfl, rfl⟩
        rw [if_neg c14] at hok
        by_cases c15 : line.pyStartsWith "Your hand" = true
        · rw [if_pos c15] at hok
          obtain ⟨sA, hsA, hok⟩ := except_bind_ok _ _ _ hok
          obtain ⟨cardsA, hcardsA, hok⟩ := except_bind_ok _ _ _ hok
          cases hok
          exact ⟨hinv.1, hinv.2⟩
        rw [if_neg c15] at hok
        by_cases c16 : (line.pyStartsWith "flop:" || line.pyStartsWith "Flop:") = true
        · rw [if_pos c16] at hok
          obtain ⟨sA, hsA, hok⟩ := except_bind_ok _ _ _ hok
          obtain ⟨cardsA, hcardsA, hok⟩ := except_bind_ok _ _ _ hok
          cases hok
          exact ⟨hinv.1, hinv.2⟩
        rw [if_neg c16] at hok
        by_cases c17 : (line.pyStartsWith "turn:" || line.pyStartsWith "Turn:") = true
        · rw [if_pos c17] at hok
          obtain ⟨sA, hsA, hok⟩ := except_bind_ok _ _ _ hok
          obtain ⟨cA, hcA, hok⟩ := except_bind_ok _ _ _ hok
          cases hok
          exact ⟨hinv.1, hinv.2⟩
        rw [if_neg c17] at hok
        by_cases c18 : (line.pyStartsWith "river:" || line.pyStartsWith "River:") = true
        · rw [if_pos c18] at hok
          obtain ⟨sA, hsA, hok⟩ := except_bind_ok _ _ _ hok
          obtain ⟨cA, hcA, hok⟩ := except_bind_ok _ _ _ hok
          cases hok
          exact ⟨hinv.1, hinv.2⟩
        rw [if_neg c18] at hok
        by_cases c19 : line.pyStartsWith "Flop (second run):" = true
        · rw [if_pos c19] at hok
          obtain ⟨sA, hsA, hok⟩ := except_bind_ok _ _ _ hok
          obtain ⟨cardsA, hcardsA, hok⟩ := except_bind_ok _ _ _ hok
          cases hok
          exact ⟨hinv.1, hinv.2⟩
        rw [if_neg c19] at hok
        by_cases c20 : line.pyStartsWith "Turn (second run):" = true
        · rw [if_pos c20] at hok
          obtain ⟨sA, hsA, hok⟩ := except_bind_ok _ _ _ hok
          obtain ⟨cA, hcA, hok⟩ := except_bind_ok _ _ _ hok
          cases hok
          exact ⟨hinv.1, hinv.2⟩
        rw [if_neg c20] at hok
        by_cases c21 : line.pyStartsWith "River (second run):" = true
        · rw [if_pos c21] at hok
          obtain ⟨sA, hsA, hok⟩ := except_bind_ok _ _ _ hok
          obtain ⟨cA, hcA, hok⟩ := except_bind_ok _ _ _ hok
          cases hok
          exact ⟨hinv.1, hinv.2⟩
        rw [if_neg c21] at hok
        by_cases c22 : containsSubstr line "\" shows a " = true
        · rw [if_pos c22] at hok
          obtain ⟨pid, hpid, hok⟩ := except_bind_ok _ _ _ hok
          obtain ⟨uA, huA, hok⟩ := except_bind_ok _ _ _ hok
          obtain ⟨sA, hsA, hok⟩ := except_bind_ok _ _ _ hok
          obtain ⟨cardsA, hcardsA, hok⟩ := except_bind_ok _ _ _ hok
          obtain ⟨hA, hhA, hok⟩ := except_bind_ok _ _ _ hok
          cases hok
          exact ⟨hinv.1, potEq_appendStreet _ _ _ _ (req_ok _ _ _ hhA)
            (potEq_updateSeat _ _ _ (fun s => ⟨rfl, rfl⟩) hinv.2)⟩
        rw [if_neg c22] at hok
        by_cases c23 : (containsSubstr line "\" collected " ||
        containsSubstr line "\" gained " || containsSubstr line " wins ") = true
        · rw [if_pos c23] at hok
          obtain ⟨rl, hrl, hok⟩ := except_bind_ok _ _ _ hok
          cases hrl
          by_cases csr : containsSubstr (line.pyReplace "gained" "collected") "second run" = true
          · by_cases cwins : containsSubstr (line.pyReplace "gained" "collected") " wins " = true
            · rw [if_pos cwins] at hok
              obtain ⟨sW, hsW, hok⟩ := except_bind_ok _ _ _ hok
              obtain ⟨c, hc, hok⟩ := except_bind_ok _ _ _ hok
              obtain ⟨pid, hpid, hok⟩ := except_bind_ok _ _ _ hok
              obtain ⟨u0, hu0, hok⟩ := except_bind_ok _ _ _ hok
              obtain ⟨h3, happ, hok⟩ := except_bind_ok _ _ _ hok
              have hp3 : PotEq h3 := by
                refine potEq_appendStreet _ _ _ _ (req_ok _ _ _ happ) ?_
                rw [if_pos csr]
                refine potEq_collect st.cur pid c _ ?_ ?_ hinv.2
                · intro s
                  rw [ratAdd_eq]
                  ring
                · exact Option.isSome_iff_exists.mpr ⟨u0, req_ok _ _ _ hu0⟩
              by_cases cw : containsSubstr (line.pyReplace "gained" "collected") " with " = true
              · rw [if_pos cw] at hok
                by_cases chand : containsSubstr (line.pyReplace "gained" "collected") "(hand: " = true
                · rw [if_pos chand] at hok
                  obtain ⟨s6, hs6, hok⟩ := except_bind_ok _ _ _ hok
                  obtain ⟨objs, hobjs, hok⟩ := except_bind_ok _ _ _ hok
                  obtain ⟨h5, hh5, hok⟩ := except_bind_ok _ _ _ hok
                  cases hh5
                  simp only [] at hok
                  rw [if_pos csr] at hok
                  obtain ⟨seatA, hseat, hok⟩ := except_bind_ok _ _ _ hok
                  obtain ⟨wres, hwres, hok⟩ := except_bind_ok _ _ _ hok
                  obtain ⟨h6, hh6, hok⟩ := except_bind_ok _ _ _ hok
                  cases hh6
                  cases hok
                  refine ⟨hinv.1, ?_⟩
                  refine potEq_updateSeat _ _ _ ?_ (potEq_updateSeat _ _ _ ?_ hp3)
                  · exact fun s => ⟨rfl, rfl⟩
                  · exact fun s => ⟨rfl, rfl⟩
                · rw [if_neg chand] at hok
                  obtain ⟨h5, hh5, hok⟩ := except_bind_ok _ _ _ hok
                  cases hh5
                  simp only [] at hok
                  rw [if_pos csr] at hok
                  obtain ⟨seatA, hseat, hok⟩ := except_bind_ok _ _ _ hok
                  obtain ⟨wres, hwres, hok⟩ := except_bind_ok _ _ _ hok
                  obtain ⟨h6, hh6, hok⟩ := except_bind_ok _ _ _ hok
                  cases hh6
                  cases hok
                  refine ⟨hinv.1, ?_⟩
                  refine potEq_updateSeat _ _ _ ?_ hp3
                  exact fun s => ⟨rfl, rfl⟩
              · rw [if_neg cw] at hok
                obtain ⟨seatA, hseat, hok⟩ := except_bind_ok _ _ _ hok
                obtain ⟨h6, hh6, hok⟩ := except_bind_ok _ _ _ hok
                cases hh6
                cases hok
                refine ⟨hinv.1, ?_⟩
                refine potEq_updateSeat _ _ _ ?_ hp3
                exact fun s => ⟨rfl, rfl⟩
            · rw [if_neg cwins] at hok
              obtain ⟨sW, hsW, hok⟩ := except_bind_ok _ _ _ hok
              obtain ⟨c, hc, hok⟩ := except_bind_ok _ _ _ hok
              obtain ⟨pid, hpid, hok⟩ := except_bind_ok _ _ _ hok
              obtain ⟨u0, hu0, hok⟩ := except_bind_ok _ _ _ hok
              obtain ⟨h3, happ, hok⟩ := except_bind_ok _ _ _ hok
              have hp3 : PotEq h3 := by
                refine potEq_appendStreet _ _ _ _ (req_ok _ _ _ happ) ?_
                rw [if_pos csr]
                refine potEq_collect st.cur pid c _ ?_ ?_ hinv.2
                · intro s
                  rw [ratAdd_eq]
                  ring
                · exact Option.isSome_iff_exists.mpr ⟨u0, req_ok _ _ _ hu0⟩
              by_cases cw : containsSubstr (line.pyReplace "gained" "collected") " with " = true
              · rw [if_pos cw] at hok
                by_cases chand : containsSubstr (line.pyReplace "gained" "collected") "(hand: " = true
                · rw [if_pos chand] at hok
                  obtain ⟨s6, hs6, hok⟩ := except_bind_ok _ _ _ hok
                  obtain ⟨objs, hobjs, hok⟩ := except_bind_ok _ _ _ hok
                  obtain ⟨h5, hh5, hok⟩ := except_bind_ok _ _ _ hok
                  cases hh5
                  simp only [] at hok
                  rw [if_pos csr] at hok
                  obtain ⟨seatA, hseat, hok⟩ := except_bind_ok _ _ _ hok
                  obtain ⟨wres, hwres, hok⟩ := except_bind_ok _ _ _ hok
                  obtain ⟨h6, hh6, hok⟩ := except_bind_ok _ _ _ hok
                  cases hh6
                  cases hok
                  refine ⟨hinv.1, ?_⟩
                  refine potEq_updateSeat _ _ _ ?_ (potEq_updateSeat _ _ _ ?_ hp3)
                  · exact fun s => ⟨rfl, rfl⟩
                  · exact fun s => ⟨rfl, rfl⟩
                · rw [if_neg chand] at hok
                  obtain ⟨h5, hh5, hok⟩ := except_bind_ok _ _ _ hok
                  cases hh5
                  simp only [] at hok
                  rw [if_pos csr] at hok
                  obtain ⟨seatA, hseat, hok⟩ := except_bind_ok _ _ _ hok
                  obtain ⟨wres, hwres, hok⟩ := except_bind_ok _ _ _ hok
                  obtain ⟨h6, hh6, hok⟩ := except_bind_ok _ _ _ hok
                  cases hh6
                  cases hok
                  refine ⟨hinv.1, ?_⟩
                  refine potEq_updateSeat _ _ _ ?_ hp3
                  exact fun s => ⟨rfl, rfl⟩
              · rw [if_neg cw] at hok
                obtain ⟨seatA, hseat, hok⟩ := except_bind_ok _ _ _ hok
                obtain ⟨h6, hh6, hok⟩ := except_bind_ok _ _ _ hok
                cases hh6
                cases hok
                refine ⟨hinv.1, ?_⟩
                refine potEq_updateSeat _ _ _ ?_ hp3
                exact fun s => ⟨rfl, rfl⟩
          · by_cases cwins : containsSubstr (line.pyReplace "gained" "collected") " wins " = true
            · rw [if_pos cwins] at hok
              obtain ⟨sW, hsW, hok⟩ := except_bind_ok _ _ _ hok
              obtain ⟨c, hc, hok⟩ := except_bind_ok _ _ _ hok
              obtain ⟨pid, hpid, hok⟩ := except_bind_ok _ _ _ hok
              obtain ⟨u0, hu0, hok⟩ := except_bind_ok _ _ _ hok
              obtain ⟨h3, happ, hok⟩ := except_bind_ok _ _ _ hok
              have hp3 : PotEq h3 := by
                refine potEq_appendStreet _ _ _ _ (req_ok _ _ _ happ) ?_
                rw [if_neg csr]
                refine potEq_collect st.cur pid c _ ?_ ?_ hinv.2
                · intro s
                  rw [ratAdd_eq]
                  ring
                · exact Option.isSome_iff_exists.mpr ⟨u0, req_ok _ _ _ hu0⟩
              by_cases cw : containsSubstr (line.pyReplace "gained" "collected") " with " = true
              · rw [if_pos cw] at hok
                by_cases chand : containsSubstr (line.pyReplace "gained" "collected") "(hand: " = true
                · rw [if_pos chand] at hok
                  obtain ⟨s6, hs6, hok⟩ := except_bind_ok _ _ _ hok
                  obtain ⟨objs, hobjs, hok⟩ := except_bind_ok _ _ _ hok
                  obtain ⟨h5, hh5, hok⟩ := except_bind_ok _ _ _ hok
                  cases hh5
                  simp only [] at hok
                  rw [if_neg csr] at hok
                  obtain ⟨seatA, hseat, hok⟩ := except_bind_ok _ _ _ hok
                  obtain ⟨wres, hwres, hok⟩ := except_bind_ok _ _ _ hok
                  obtain ⟨h6, hh6, hok⟩ := except_bind_ok _ _ _ hok
                  cases hh6
                  cases hok
                  refine ⟨hinv.1, ?_⟩
                  refine potEq_updateSeat _ _ _ ?_ (potEq_updateSeat _ _ _ ?_ hp3)
                  · exact fun s => ⟨rfl, rfl⟩
                  · exact fun s => ⟨rfl, rfl⟩
                · rw [if_neg chand] at hok
                  obtain ⟨h5, hh5, hok⟩ := except_bind_ok _ _ _ hok
                  cases hh5
                  simp only [] at hok
                  rw [if_neg csr] at hok
                  obtain ⟨seatA, hseat, hok⟩ := except_bind_ok _ _ _ hok
                  obtain ⟨wres, hwres, hok⟩ := except_bind_ok _ _ _ hok
                  obtain ⟨h6, hh6, hok⟩ := except_bind_ok _ _ _ hok
                  cases hh6
                  cases hok
                  refine ⟨hinv.1, ?_⟩
                  refine potEq_updateSeat _ _ _ ?_ hp3
                  exact fun s => ⟨rfl, rfl⟩
              · rw [if_neg cw] at hok
                obtain ⟨seatA, hseat, hok⟩ := except_bind_ok _ _ _ hok
                obtain ⟨h6, hh6, hok⟩ := except_bind_ok _ _ _ hok
                cases hh6
                cases hok
                refine ⟨hinv.1, ?_⟩
                refine potEq_updateSeat _ _ _ ?_ hp3
                exact fun s => ⟨rfl, rfl⟩
            · rw [if_neg cwins] at hok
              obtain ⟨sW, hsW, hok⟩ := except_bind_ok _ _ _ hok
              obtain ⟨c, hc, hok⟩ := except_bind_ok _ _ _ hok
              obtain ⟨pid, hpid, hok⟩ := except_bind_ok _ _ _ hok
              obtain ⟨u0, hu0, hok⟩ := except_bind_ok _ _ _ hok
              obtain ⟨h3, happ, hok⟩ := except_bind_ok _ _ _ hok
              have hp3 : PotEq h3 := by
                refine potEq_appendStreet _ _ _ _ (req_ok _ _ _ happ) ?_
                rw [if_neg csr]
                refine potEq_collect st.cur pid c _ ?_ ?_ hinv.2
                · intro s
                  rw [ratAdd_eq]
                  ring
                · exact Option.isSome_iff_exists.mpr ⟨u0, req_ok _ _ _ hu0⟩
              by_cases cw : containsSubstr (line.pyReplace "gained" "collected") " with " = true
              · rw [if_pos cw] at hok
                by_cases chand : containsSubstr (line.pyReplace "gained" "collected") "(hand: " = true
                · rw [if_pos chand] at hok
                  obtain ⟨s6, hs6, hok⟩ := except_bind_ok _ _ _ hok
                  obtain ⟨objs, hobjs, hok⟩ := except_bind_ok _ _ _ hok
                  obtain ⟨h5, hh5, hok⟩ := except_bind_ok _ _ _ hok
                  cases hh5
                  simp only [] at hok
                  rw [if_neg csr] at hok
                  obtain ⟨seatA, hseat, hok⟩ := except_bind_ok _ _ _ hok
                  obtain ⟨wres, hwres, hok⟩ := except_bind_ok _ _ _ hok
                  obtain ⟨h6, hh6, hok⟩ := except_bind_ok _ _ _ hok
                  cases hh6
                  cases hok
                  refine ⟨hinv.1, ?_⟩
                  refine potEq_updateSeat _ _ _ ?_ (potEq_updateSeat _ _ _ ?_ hp3)
                  · exact fun s => ⟨rfl, rfl⟩
                  · exact fun s => ⟨rfl, rfl⟩
                · rw [if_neg chand] at hok
                  obtain ⟨h5, hh5, hok⟩ := except_bind_ok _ _ _ hok
                  cases hh5
                  simp only [] at hok
                  rw [if_neg csr] at hok
                  obtain ⟨seatA, hseat, hok⟩ := except_bind_ok _ _ _ hok
                  obtain ⟨wres, hwres, hok⟩ := except_bind_ok _ _ _ hok
                  obtain ⟨h6, hh6, hok⟩ := except_bind_ok _ _ _ hok
                  cases hh6
                  cases hok
                  refine ⟨hinv.1, ?_⟩
                  refine potEq_updateSeat _ _ _ ?_ hp3
                  exact fun s => ⟨rfl, rfl⟩
              · rw [if_neg cw] at hok
                obtain ⟨seatA, hseat, hok⟩ := except_bind_ok _ _ _ hok
                obtain ⟨h6, hh6, hok⟩ := except_bind_ok _ _ _ hok
                cases hh6
                cases hok
                refine ⟨hinv.1, ?_⟩
                refine potEq_updateSeat _ _ _ ?_ hp3
                exact fun s => ⟨rfl, rfl⟩
        rw [if_neg c23] at hok
        by_cases c24 : (line == "All players in hand choose to run it twice.") = true
        · rw [if_pos c24] at hok
          cases hok
          exact ⟨hinv.1, hinv.2⟩
        rw [if_neg c24] at hok
        by_cases c25 : containsSubstr line " posts an ante of " = true
        · rw [if_pos c25] at hok
          obtain ⟨pid, hpid, hok⟩ := except_bind_ok _ _ _ hok
          obtain ⟨sA, hsA, hok⟩ := except_bind_ok _ _ _ hok
          obtain ⟨amtA, hamtA, hok⟩ := except_bind_ok _ _ _ hok
          cases hok
          exact ⟨hinv.1, hinv.2⟩
        rw [if_neg c25] at hok
        cases hok
        exact ⟨hinv.1, hinv.2⟩

theorem parseLine_inv (sym : String) (st : ParserState) (row : String × String)
    (st' : ParserState) (hok : parseLine sym st row = .ok st')
    (hinv : StateInv st) : StateInv st' := by
  unfold parseLine at hok
  obtain ⟨st1, hst1, hok⟩ := except_bind_ok _ _ _ hok
  cases hok
  have h1 := parseLineBody_inv sym st row.1 row.2 st1 hst1 hinv
  exact ⟨h1.1, potEq_of_parts _ _ rfl rfl h1.2⟩

theorem C9_pot_invariant_core (sym : String) (log : List (String × String))
    (hands : List Hand) (hok : parseLog sym log = .ok hands) :
    ∀ h ∈ hands, PotEq h := by
  unfold parseLog at hok
  obtain ⟨fin, hfold, hok⟩ := except_bind_ok _ _ _ hok
  cases hok
  have hinv : StateInv fin := by
    refine foldlM_except_inv (parseLine sym) StateInv ?_ log {} fin hfold ?_
    · intro s a s' h1 h2
      exact parseLine_inv sym s a s' h1 h2
    · refine ⟨?_, potEq_empty⟩
      intro h hm
      exact absurd hm (List.not_mem_nil h)
  intro h hm
  rcases List.mem_append.mp hm with hm | hm
  · exact hinv.1 h hm
  · rw [List.eq_of_mem_replicate hm]
    exact hinv.2

theorem headD_mem_of_isEmpty_false {α : Type} (l : List α) (d : α)
    (h : l.isEmpty = false) : l.headD d ∈ l := by
  cases l with
  | nil => simp [List.isEmpty] at h
  | cons a t => exact List.mem_cons_self a t

def c9Log : List (String × String) :=
  [("-- starting hand #1 (No Limit Texas Hold'em) --", "2022-01-01T00:00:00.000Z"),
   ("Player stacks: #1 \"Alice @ a1\" (100) | #2 \"Bob @ b2\" (100)", "tsZ"),
   ("\"Alice @ a1\" collected 3.00 from pot", "tsZ"),
   ("-- ending hand #1 --", "tsZ")]

/-- C9: for every hand in the game's hand list after a successful parse,
`total_pot` equals the sum over the hand's seats of `collected_amount`
plus `collected_amount_second_run`. -/
theorem C9_pot_invariant (log : List (String × String)) (currency : String)
    (hands : List Hand) (hok : gameHandList log currency = .ok hands) :
    ∀ h ∈ hands, h.total_pot =
      (h.seats.map (fun s => s.collected_amount + s.collected_amount_second_run)).sum := by
  unfold gameHandList at hok
  obtain ⟨sym, hsym, hok⟩ := except_bind_ok _ _ _ hok
  exact C9_pot_invariant_core sym log hands hok

set_option maxRecDepth 80000 in
/-- Witness for C9 on a concrete two-seat log with one collect line. -/
theorem C9_pot_invariant_witness :
    (((gameHandList c9Log "USD").toOption.getD []).headD {}).total_pot =
      ((((gameHandList c9Log "USD").toOption.getD []).headD {}).seats.map
        (fun s => s.collected_amount + s.collected_amount_second_run)).sum := by
  exact C9_pot_invariant c9Log "USD"
    ((gameHandList c9Log "USD").toOption.getD []) (by rfl) _
    (headD_mem_of_isEmpty_false _ {} (by rfl))

/-! ## C7: `Hand.format_as_pokerstars_hand` and reproducibility -/

/-- `Path(p).stem` on a POSIX path: the final component without its last
suffix, per CPython's rule (`name[:i]` when the last dot sits strictly
inside the name). -/
def pathStem (p : String) : String :=
  let name := (p.pySplit "/").getLastD ""
  let cs := name.data
  let n := cs.length
  let idx := (List.range n).foldl
    (fun acc i => if cs.getD i ' ' == '.' then some i else acc) none
  match idx with
  | some i => if 0 < i ∧ i < n - 1 then String.mk (cs.take i) else name
  | none => name

/-- `seed(a=s); getrandbits(64)` for a string seed: CPython seeds the
Mersenne Twister from the string deterministically (independent of the
platform and the process), so the draw is a pure function of the seed
string into `[0, 2^64)`.  The exact mixing of MT19937 is irrelevant to the
claims; a concrete deterministic mix stands in for it. -/
def seededRand64 (s : String) : Nat :=
  s.data.foldl (fun a c =>
    (a * 6364136223846793005 + c.toNat + 1442695040888963407) %
      18446744073709551616) 0

/-- An f-string interpolation of an optional value: `None` prints as
`"None"`. -/
def optStr : Option String → String
  | some s => s
  | none => "None"

/-- `player.alias_name or player.player_name`: `None` and the empty string
are falsy. -/
def aliasOrName (p : Player) : String :=
  match p.alias_name with
  | some a => if a == "" then p.player_name else a
  | none => p.player_name

/-- `hand_start_datetime.strftime(f"%Y/%m/%d %H:%M:%S {timezone}")` on the
stored ISO timestamp. -/
def strftimePokerStars (ts tz : String) : String :=
  let d := (ts.pySplit "T").headD ""
  let t := (((ts.pySplit "T").getD 1 "").pySplit ".").headD ""
  (d.pyReplace "-" "/") ++ " " ++ t ++ " " ++ tz

/-- An effectful `for`-append loop over a list (each iteration may raise). -/
def mapExcept {α β : Type} (f : α → Except String β) : List α → Except String (List β)
  | [] => .ok []
  | a :: l => do
      let b ← f a
      let bs ← mapExcept f l
      pure (b :: bs)

/-- One iteration of `format_actions_pokerstars` (hand.py lines 183–220):
format a single action, `None` players raising `AttributeError` and an
unknown action raising `PNLogParsingException`. -/
def formatAction (sym : String) (a : ActionR) : Except String String :=
  if a.action == "bet" then do
    let p ← req "action player" a.player
    pure (aliasOrName p ++ ": bets " ++ sym ++ formatAmount a.bet_amount)
  else if a.action == "check" then do
    let p ← req "action player" a.player
    pure (aliasOrName p ++ ": checks")
  else if a.action == "fold" then do
    let p ← req "action player" a.player
    pure (aliasOrName p ++ ": folds")
  else if a.action == "call" then do
    let p ← req "action player" a.player
    pure (aliasOrName p ++ ": calls " ++ sym ++ formatAmount a.bet_amount)
  else if a.action == "raise" then do
    let p ← req "action player" a.player
    pure (aliasOrName p ++ ": raises " ++ sym ++ formatAmount a.bet_difference ++
      " to " ++ sym ++ formatAmount a.bet_amount)
  else if a.action == "uncalled bet" then do
    let p ← req "action player" a.player
    pure ("Uncalled bet (" ++ sym ++ formatAmount a.bet_amount ++ ") returned to " ++
      aliasOrName p)
  else if a.action == "show" then do
    let p ← req "action player" a.player
    pure (aliasOrName p ++ ": shows " ++ a.cards_shown)
  else if a.action == "collect" then do
    let p ← req "action player" a.player
    pure (aliasOrName p ++ " collected " ++ sym ++ formatAmount a.bet_amount ++
      " from pot")
  else .error "Invalid action in actions list"

/-- `Hand.format_actions_pokerstars`. -/
def format_actions_pokerstars (sym : String) (l : List ActionR) :
    Except String (List String) :=
  mapExcept (formatAction sym) l

/-- One iteration of the summary loop at the end of
`format_as_pokerstars_hand` (hand.py lines 391–411): possibly rewrite the
seat's summary fields in place, then render the seat's summary line. -/
def summarizeSeat (board rboard : List Card) (rtw : Bool) (s : Seat) :
    Except String (String × Seat) := do
  let s1 ←
    if s.seat_summary == "didn't show and lost" && !(s.seat_hole_cards == "") then do
      let wres ← req "summary eval" (evalFinalHand (s.seat_hole_cards_obj ++ board))
      pure { s with seat_summary :=
        "showed " ++ s.seat_hole_cards ++ " and lost with " ++ wres.1 }
    else pure s
  let s2 ←
    if rtw && s1.seat_run_it_twice_summary == "" && !(s1.seat_hole_cards == "") then do
      let wres ← req "second run summary eval"
        (evalFinalHand (s1.seat_hole_cards_obj ++ rboard))
      pure { s1 with seat_run_it_twice_summary := ", and lost with " ++ wres.1 }
    else pure s1
  let base := "Seat " ++ toString s2.seat_number ++ ": " ++ aliasOrName s2.seat_player ++
    s2.seat_desc ++ " " ++ s2.seat_summary ++ s2.seat_run_it_twice_summary
  let line := if !(containsSubstr s2.seat_summary "showed") && !(s2.seat_hole_cards == "")
    then base ++ " " ++ s2.seat_hole_cards else base
  pure (line, s2)

/-- The whole summary loop: the produced lines together with the mutated
seat list. -/
def summarizeSeats (board rboard : List Card) (rtw : Bool) :
    List Seat → Except String (List String × List Seat)
  | [] => .ok ([], [])
  | s :: rest => do
      let r ← summarizeSeat board rboard rtw s
      let rs ← summarizeSeats board rboard rtw rest
      pure (r.1 :: rs.1, r.2 :: rs.2)

/-- The button-seat computation of `format_as_pokerstars_hand` (hand.py
lines 253–265): with a dead button the seat two places before the big
blind (`IndexError` when no big blind seat was recorded and a positive
stack exists), otherwise the dealer's seat (`AttributeError` when the
dealer has no seat). -/
def buttonSeatId (h : Hand) : Except String Int :=
  match h.dealer with
  | none =>
      if (h.seats.filter (fun s => ratLtB 0 s.stack_size)).isEmpty then pure 1
      else do
        let bb ← req "dead button: big blind seats empty" h.big_blind_seats.head?
        pure (((bb.seat_number - 3) % (10 : Int)) + 1)
  | some d =>
      req "button: dealer has no seat"
        ((h.getSeat d.player_name_with_id).map (fun s => s.seat_number))

/-- The flop section: header (first-run label when a second run exists)
plus the flop actions. -/
def flopSection (h : Hand) (sym : String) (fsOpt : Option String) :
    Except String (List String) :=
  if h.flop_cards.isEmpty then pure []
  else do
    let acts ← format_actions_pokerstars sym h.flop_actions
    pure (((if !h.run_it_twice_flop_cards.isEmpty then "*** FIRST FLOP *** ["
      else "*** FLOP *** [") ++ optStr fsOpt ++ "]") :: acts)

/-- The turn section. -/
def turnSection (h : Hand) (sym : String) (fsOpt : Option String) :
    Except String (List String) :=
  match h.turn_card with
  | some c => do
      let acts ← format_actions_pokerstars sym h.turn_actions
      pure (((if h.run_it_twice_turn_card.isSome then "*** FIRST TURN *** ["
        else "*** TURN *** [") ++ optStr fsOpt ++ "] [" ++ c.card_str ++ "]") :: acts)
  | none => pure []

/-- The river section. -/
def riverSection (h : Hand) (sym : String) (fsOpt tsOpt : Option String) :
    Except String (List String) :=
  match h.river_card with
  | some c => do
      let acts ← format_actions_pokerstars sym h.river_actions
      pure (((if h.run_it_twice_river_card.isSome then "*** FIRST RIVER *** ["
        else "*** RIVER *** [") ++ optStr fsOpt ++ " " ++ optStr tsOpt ++ "] [" ++
          c.card_str ++ "]") :: acts)
  | none => pure []

/-- The second showdown section, present only for run-it-twice hands. -/
def secondShowdownSection (h : Hand) (sym : String) : Except String (List String) :=
  if h.run_it_twice then do
    let acts ← format_actions_pokerstars sym h.run_it_twice_showdown_actions
    pure ("*** SECOND SHOW DOWN ***" :: acts)
  else pure []

/-- `Hand.format_as_pokerstars_hand` (hand.py lines 222–412).  The seats
mutated by the summary loop are returned as the post-call hand; the
process entropy that `seed(a=None)` would draw from the OS is an explicit
argument, consumed only when `file_path_seed` is falsy. -/
def format_as_pokerstars_hand (h : Hand) (currency currency_symbol timezone : String)
    (file_path_seed : String) (entropy : Nat) :
    Except String (List String × Hand) := do
  let hand_id : Nat :=
    if file_path_seed == "" then entropy % 18446744073709551616
    else seededRand64 (pathStem file_path_seed ++ "-" ++ toString h.hand_number)
  let big_blind := currency_symbol ++ formatAmount h.big_blind_amount
  let small_blind := currency_symbol ++ formatAmount h.small_blind_amount
  let straddle := currency_symbol ++ formatAmount h.straddle_amount
  let dt ← req "hand datetime" h.hand_start_datetime
  let date_formatted := strftimePokerStars dt timezone
  let button_seat_id ← buttonSeatId h
  let headerLines := [
    "PokerStars Hand #" ++ toString hand_id ++ ": " ++ optStr h.hand_type ++ " (" ++
      small_blind ++ "/" ++ big_blind ++ " " ++ currency ++ ") - " ++ date_formatted,
    "Table 'PNLogConverter' 10-max Seat #" ++ toString button_seat_id ++
      " is the button"]
  let seatLines := h.seats.map (fun s =>
    "Seat " ++ toString s.seat_number ++ ": " ++ aliasOrName s.seat_player ++ " (" ++
      currency_symbol ++ formatAmount s.stack_size ++ " in chips)")
  let anteLines ← mapExcept (fun pa => do
      let p ← req "ante player" pa.1
      pure (aliasOrName p ++ ": posts the ante " ++ currency_symbol ++
        formatAmount pa.2)) h.antes
  let sbLines := (match h.small_blind_player with
    | some p => [aliasOrName p ++ ": posts small blind " ++ small_blind]
    | none => [])
  let bbLines ← mapExcept (fun op => do
      let p ← req "big blind player" op
      pure (aliasOrName p ++ ": posts big blind " ++ big_blind)) h.big_blind_players
  let strLines := (match h.straddle_player with
    | some p => [aliasOrName p ++ ": straddle " ++ straddle]
    | none => [])
  let msbLines ← mapExcept (fun op => do
      let p ← req "missing small blind player" op
      pure (aliasOrName p ++ ": posts small blind " ++ small_blind))
    h.missing_small_blinds
  let holeLines := "*** HOLE CARDS ***" :: (match h.hero_player with
    | some hp =>
        if h.hole_cards.isEmpty then []
        else ["Dealt to " ++ aliasOrName hp ++ " [" ++
          pyJoin " " (h.hole_cards.map Card.card_str) ++ "]"]
    | none => [])
  let preflopLines ← format_actions_pokerstars currency_symbol h.pre_flop_actions
  let fsOpt : Option String :=
    if h.flop_cards.isEmpty then none
    else some (pyJoin " " (h.flop_cards.map Card.card_str))
  let tsOpt : Option String := h.turn_card.map Card.card_str
  let flopLines ← flopSection h currency_symbol fsOpt
  let turnLines ← turnSection h currency_symbol fsOpt
  let riverLines ← riverSection h currency_symbol fsOpt tsOpt
  let sfsOpt : Option String :=
    if h.run_it_twice_flop_cards.isEmpty then none
    else some (pyJoin " " (h.run_it_twice_flop_cards.map Card.card_str))
  let stOpt : Option String := h.run_it_twice_turn_card.map Card.card_str
  let sfLines := (match sfsOpt with
    | some sfs => ["*** SECOND FLOP *** [" ++ sfs ++ "]"]
    | none => [])
  let stLines := (match stOpt with
    | some stc => ["*** SECOND TURN *** [" ++ optStr (sfsOpt.orElse (fun _ => fsOpt)) ++
        "] [" ++ stc ++ "]"]
    | none => [])
  let srLines := (match h.run_it_twice_river_card with
    | some c => ["*** SECOND RIVER *** [" ++ optStr (sfsOpt.orElse (fun _ => fsOpt)) ++
        " " ++ optStr (stOpt.orElse (fun _ => tsOpt)) ++ "] [" ++ c.card_str ++ "]"]
    | none => [])
  let sdHeader := if h.run_it_twice then ["*** FIRST SHOW DOWN ***"]
    else ["*** SHOW DOWN ***"]
  let sdLines ← format_actions_pokerstars currency_symbol h.showdown_actions
  let sd2Lines ← secondShowdownSection h currency_symbol
  let sumHeader := ["*** SUMMARY ***",
    "Total pot: " ++ currency_symbol ++ formatAmount h.total_pot ++ " | Rake 0"]
  let boardLines :=
    if h.run_it_twice then
      ["Hand was run twice"] ++
      (if h.board.isEmpty then [] else
        ["FIRST Board [" ++ pyJoin " " (h.board.map Card.card_str) ++ "]"]) ++
      (if h.run_it_twice_board.isEmpty then [] else
        ["SECOND Board [" ++ pyJoin " " (h.run_it_twice_board.map Card.card_str) ++ "]"])
    else if h.board.isEmpty then []
    else ["Board [" ++ pyJoin " " (h.board.map Card.card_str) ++ "]"]
  let sres ← summarizeSeats h.board h.run_it_twice_board h.run_it_twice h.seats
  pure (headerLines ++ seatLines ++ anteLines ++ sbLines ++ bbLines ++ strLines ++
    msbLines ++ holeLines ++ preflopLines ++ flopLines ++ turnLines ++ riverLines ++
    sfLines ++ stLines ++ srLines ++ sdHeader ++ sdLines ++ sd2Lines ++ sumHeader ++
    boardLines ++ sres.1, { h with seats := sres.2 })

theorem except_pure_bind {α β : Type} (a : α) (f : α → Except String β) :
    ((pure a : Except String α) >>= f) = f a := rfl

theorem except_bind_ok3 {α β : Type} (e : Except String α) (f : α → Except String β) (v : β)
    (h : e >>= f = .ok v) : ∃ a, e = .ok a ∧ f a = .ok v := by
  cases e with
  | error msg => exact Except.noConfusion h
  | ok a => exact ⟨a, rfl, h⟩

/-- A summary rewritten to `showed ...` can never equal the sentinel
`didn't show and lost` again. -/
theorem showed_ne (x y : String) :
    (("showed " ++ x ++ " and lost with " ++ y) == "didn't show and lost") = false := by
  have hne : ("showed " ++ x ++ " and lost with " ++ y) ≠ "didn't show and lost" := by
    intro hcon
    have h1 : ("showed " ++ x ++ " and lost with " ++ y).data.head? = some 's' := rfl
    have h2 : ("didn't show and lost" : String).data.head? = some 'd' := rfl
    rw [hcon] at h1
    exact absurd (h1.symm.trans h2) (by decide)
  exact beq_eq_false_iff_ne.mpr hne

/-- A second-run summary rewritten to `, and lost with ...` is nonempty. -/
theorem lost_ne (y : String) : ((", and lost with " ++ y) == "") = false := by
  have hne : (", and lost with " ++ y) ≠ "" := by
    intro hcon
    have h1 : (", and lost with " ++ y).data.head? = some ',' := rfl
    have h2 : ("" : String).data.head? = none := rfl
    rw [hcon] at h1
    exact absurd (h1.symm.trans h2) (by decide)
  exact beq_eq_false_iff_ne.mpr hne

/-- The seat fields the rest of the formatter reads are untouched by the
summary loop. -/
def preservedSeat (s t : Seat) : Prop :=
  t.seat_number = s.seat_number ∧ t.seat_player = s.seat_player ∧
    t.stack_size = s.stack_size

theorem summarizeSeat_pres (b rb : List Card) (t : Bool) (s : Seat) (r : String × Seat)
    (h : summarizeSeat b rb t s = .ok r) : preservedSeat s r.2 := by
  unfold summarizeSeat at h
  by_cases c1 : (s.seat_summary == "didn't show and lost" &&
      !(s.seat_hole_cards == "")) = true
  · rw [if_pos c1] at h
    obtain ⟨w1, hw1, h⟩ := except_bind_ok3 _ _ _ h
    obtain ⟨s1v, hs1, h⟩ := except_bind_ok3 _ _ _ h
    cases hs1
    try simp only [] at h
    by_cases c2 : (t && s.seat_run_it_twice_summary == "" &&
        !(s.seat_hole_cards == "")) = true
    · rw [if_pos c2] at h
      obtain ⟨w2, hw2, h⟩ := except_bind_ok3 _ _ _ h
      obtain ⟨s2v, hs2, h⟩ := except_bind_ok3 _ _ _ h
      cases hs2
      try simp only [] at h
      cases h
      exact ⟨rfl, rfl, rfl⟩
    · rw [if_neg c2] at h
      obtain ⟨s2v, hs2, h⟩ := except_bind_ok3 _ _ _ h
      cases hs2
      try simp only [] at h
      cases h
      exact ⟨rfl, rfl, rfl⟩
  · rw [if_neg c1] at h
    obtain ⟨s1v, hs1, h⟩ := except_bind_ok3 _ _ _ h
    cases hs1
    try simp only [] at h
    by_cases c2 : (t && s.seat_run_it_twice_summary == "" &&
        !(s.seat_hole_cards == "")) = true
    · rw [if_pos c2] at h
      obtain ⟨w2, hw2, h⟩ := except_bind_ok3 _ _ _ h
      obtain ⟨s2v, hs2, h⟩ := except_bind_ok3 _ _ _ h
      cases hs2
      try simp only [] at h
      cases h
      exact ⟨rfl, rfl, rfl⟩
    · rw [if_neg c2] at h
      obtain ⟨s2v, hs2, h⟩ := except_bind_ok3 _ _ _ h
      cases hs2
      try simp only [] at h
      cases h
      exact ⟨rfl, rfl, rfl⟩

theorem summarizeSeat_stable (b rb : List Card) (t : Bool) (s : Seat) (r : String × Seat)
    (h : summarizeSeat b rb t s = .ok r) : summarizeSeat b rb t r.2 = .ok r := by
  unfold summarizeSeat at h ⊢
  by_cases c1 : (s.seat_summary == "didn't show and lost" &&
      !(s.seat_hole_cards == "")) = true
  · rw [if_pos c1] at h
    obtain ⟨w1, hw1, h⟩ := except_bind_ok3 _ _ _ h
    obtain ⟨s1v, hs1, h⟩ := except_bind_ok3 _ _ _ h
    cases hs1
    try simp only [] at h
    by_cases c2 : (t && s.seat_run_it_twice_summary == "" &&
        !(s.seat_hole_cards == "")) = true
    · rw [if_pos c2] at h
      obtain ⟨w2, hw2, h⟩ := except_bind_ok3 _ _ _ h
      obtain ⟨s2v, hs2, h⟩ := except_bind_ok3 _ _ _ h
      cases hs2
      try simp only [] at h
      cases h
      have hA : ((("showed " ++ s.seat_hole_cards ++ " and lost with " ++ w1.1) ==
          "didn't show and lost") && !(s.seat_hole_cards == "")) = false := by
        rw [showed_ne, Bool.false_and]
      have hB : (t && ((", and lost with " ++ w2.1) == "") &&
          !(s.seat_hole_cards == "")) = false := by
        rw [lost_ne, Bool.and_false, Bool.false_and]
      try simp only []
      rw [hA, if_neg Bool.false_ne_true, except_pure_bind]
      try simp only []
      rw [hB, if_neg Bool.false_ne_true, except_pure_bind]
      rfl
    · rw [if_neg c2] at h
      obtain ⟨s2v, hs2, h⟩ := except_bind_ok3 _ _ _ h
      cases hs2
      try simp only [] at h
      cases h
      have hA : ((("showed " ++ s.seat_hole_cards ++ " and lost with " ++ w1.1) ==
          "didn't show and lost") && !(s.seat_hole_cards == "")) = false := by
        rw [showed_ne, Bool.false_and]
      have hB := Bool.eq_false_iff.mpr c2
      try simp only []
      rw [hA, if_neg Bool.false_ne_true, except_pure_bind]
      try simp only []
      rw [hB, if_neg Bool.false_ne_true, except_pure_bind]
      rfl
  · rw [if_neg c1] at h
    obtain ⟨s1v, hs1, h⟩ := except_bind_ok3 _ _ _ h
    cases hs1
    try simp only [] at h
    by_cases c2 : (t && s.seat_run_it_twice_summary == "" &&
        !(s.seat_hole_cards == "")) = true
    · rw [if_pos c2] at h
      obtain ⟨w2, hw2, h⟩ := except_bind_ok3 _ _ _ h
      obtain ⟨s2v, hs2, h⟩ := except_bind_ok3 _ _ _ h
      cases hs2
      try simp only [] at h
      cases h
      have hA := Bool.eq_false_iff.mpr c1
      have hB : (t && ((", and lost with " ++ w2.1) == "") &&
          !(s.seat_hole_cards == "")) = false := by
        rw [lost_ne, Bool.and_false, Bool.false_and]
      try simp only []
      rw [hA, if_neg Bool.false_ne_true, except_pure_bind]
      try simp only []
      rw [hB, if_neg Bool.false_ne_true, except_pure_bind]
      rfl
    · rw [if_neg c2] at h
      obtain ⟨s2v, hs2, h⟩ := except_bind_ok3 _ _ _ h
      cases hs2
      try simp only [] at h
      cases h
      have hA := Bool.eq_false_iff.mpr c1
      have hB := Bool.eq_false_iff.mpr c2
      try simp only []
      rw [hA, if_neg Bool.false_ne_true, except_pure_bind]
      try simp only []
      rw [hB, if_neg Bool.false_ne_true, except_pure_bind]
      rfl

theorem summarizeSeats_pres (b rb : List Card) (t : Bool) :
    ∀ (l : List Seat) (r : List String × List Seat),
      summarizeSeats b rb t l = .ok r → List.Forall₂ preservedSeat l r.2
  | [], r, h => by
      cases h
      exact List.Forall₂.nil
  | a :: l, r, h => by
      unfold summarizeSeats at h
      obtain ⟨r1, h1, h⟩ := except_bind_ok3 _ _ _ h
      obtain ⟨rs, h2, h⟩ := except_bind_ok3 _ _ _ h
      cases h
      exact List.Forall₂.cons (summarizeSeat_pres b rb t a r1 h1)
        (summarizeSeats_pres b rb t l rs h2)

theorem except_ok_bind2 {α β : Type} (a : α) (f : α → Except String β) :
    ((Except.ok a : Except String α) >>= f) = f a := rfl

theorem summarizeSeats_stable (b rb : List Card) (t : Bool) :
    ∀ (l : List Seat) (r : List String × List Seat),
      summarizeSeats b rb t l = .ok r → summarizeSeats b rb t r.2 = .ok r
  | [], r, h => by
      cases h
      rfl
  | a :: l, r, h => by
      unfold summarizeSeats at h
      obtain ⟨r1, h1, h⟩ := except_bind_ok3 _ _ _ h
      obtain ⟨rs, h2, h⟩ := except_bind_ok3 _ _ _ h
      cases h
      show summarizeSeats b rb t (r1.2 :: rs.2) = _
      unfold summarizeSeats
      rw [summarizeSeat_stable b rb t a r1 h1, except_ok_bind2,
        summarizeSeats_stable b rb t l rs h2, except_ok_bind2]
      rfl

theorem map_preservedSeat (f : Seat → String)
    (hf : ∀ s u, preservedSeat s u → f u = f s) :
    ∀ (l l' : List Seat), List.Forall₂ preservedSeat l l' → l'.map f = l.map f
  | _, _, List.Forall₂.nil => rfl
  | _, _, List.Forall₂.cons h1 h2 => by
      simp only [List.map_cons]
      rw [hf _ _ h1, map_preservedSeat f hf _ _ h2]

theorem filter_pos_preservedSeat :
    ∀ (l l' : List Seat), List.Forall₂ preservedSeat l l' →
      (l'.filter (fun s => ratLtB 0 s.stack_size)).isEmpty =
        (l.filter (fun s => ratLtB 0 s.stack_size)).isEmpty
  | [], [], _ => rfl
  | x :: l, y :: l', hf => by
      cases hf with
      | cons h1 h2 =>
        simp only [List.filter_cons]
        rw [h1.2.2]
        by_cases hp : ratLtB 0 x.stack_size = true
        · rw [if_pos hp, if_pos hp]
          rfl
        · rw [if_neg hp, if_neg hp]
          exact filter_pos_preservedSeat l l' h2

theorem getSeat_num_preservedSeat (pid : String) :
    ∀ (l l' : List Seat), List.Forall₂ preservedSeat l l' →
      ((l'.find? (fun s => s.seat_player.player_name_with_id == pid)).map
        (fun s => s.seat_number)) =
      ((l.find? (fun s => s.seat_player.player_name_with_id == pid)).map
        (fun s => s.seat_number))
  | [], [], _ => rfl
  | x :: l, y :: l', hf => by
      cases hf with
      | cons h1 h2 =>
        simp only [List.find?_cons, h1.2.1]
        by_cases hp : (x.seat_player.player_name_with_id == pid) = true
        · simp [hp, h1.1]
        · simp only [Bool.eq_false_iff.mpr hp]
          exact getSeat_num_preservedSeat pid l l' h2

theorem buttonSeatId_congr (h : Hand) (s' : List Seat)
    (hp : List.Forall₂ preservedSeat h.seats s') :
    buttonSeatId { h with seats := s' } = buttonSeatId h := by
  unfold buttonSeatId
  simp only []
  cases hd : h.dealer with
  | none =>
      rw [filter_pos_preservedSeat _ _ hp]
  | some d =>
      unfold Hand.getSeat
      simp only []
      rw [getSeat_num_preservedSeat _ _ _ hp]

theorem flopSection_seats (h : Hand) (s' : List Seat) (sym : String) (o : Option String) :
    flopSection { h with seats := s' } sym o = flopSection h sym o := rfl

theorem turnSection_seats (h : Hand) (s' : List Seat) (sym : String) (o : Option String) :
    turnSection { h with seats := s' } sym o = turnSection h sym o := rfl

theorem riverSection_seats (h : Hand) (s' : List Seat) (sym : String)
    (o p : Option String) :
    riverSection { h with seats := s' } sym o p = riverSection h sym o p := rfl

theorem secondShowdownSection_seats (h : Hand) (s' : List Seat) (sym : String) :
    secondShowdownSection { h with seats := s' } sym = secondShowdownSection h sym := rfl

set_option maxHeartbeats 4000000 in
theorem format_stable (h : Hand) (cur sym tz fps : String) (e1 e2 : Nat)
    (hfps : fps ≠ "") (L : List String) (h2 : Hand)
    (hok : format_as_pokerstars_hand h cur sym tz fps e1 = .ok (L, h2)) :
    format_as_pokerstars_hand h2 cur sym tz fps e2 = .ok (L, h2) := by
  have hfb : (fps == "") = false := beq_eq_false_iff_ne.mpr hfps
  unfold format_as_pokerstars_hand at hok ⊢
  rw [hfb, if_neg Bool.false_ne_true] at hok ⊢
  obtain ⟨dt, hdt, hok⟩ := except_bind_ok3 _ _ _ hok
  obtain ⟨btn, hbtn, hok⟩ := except_bind_ok3 _ _ _ hok
  obtain ⟨anteL, hante, hok⟩ := except_bind_ok3 _ _ _ hok
  obtain ⟨bbL, hbb, hok⟩ := except_bind_ok3 _ _ _ hok
  obtain ⟨msbL, hmsb, hok⟩ := except_bind_ok3 _ _ _ hok
  obtain ⟨pfL, hpf, hok⟩ := except_bind_ok3 _ _ _ hok
  obtain ⟨flopL, hflop, hok⟩ := except_bind_ok3 _ _ _ hok
  obtain ⟨turnL, hturn, hok⟩ := except_bind_ok3 _ _ _ hok
  obtain ⟨rivL, hriv, hok⟩ := except_bind_ok3 _ _ _ hok
  obtain ⟨sdL, hsd, hok⟩ := except_bind_ok3 _ _ _ hok
  obtain ⟨sd2L, hsd2, hok⟩ := except_bind_ok3 _ _ _ hok
  obtain ⟨sres, hsres, hok⟩ := except_bind_ok3 _ _ _ hok
  cases hok
  have hForall := summarizeSeats_pres h.board h.run_it_twice_board h.run_it_twice
    h.seats sres hsres
  have hmap : sres.2.map (fun s =>
      "Seat " ++ toString s.seat_number ++ ": " ++ aliasOrName s.seat_player ++ " (" ++
        sym ++ formatAmount s.stack_size ++ " in chips)") = h.seats.map (fun s =>
      "Seat " ++ toString s.seat_number ++ ": " ++ aliasOrName s.seat_player ++ " (" ++
        sym ++ formatAmount s.stack_size ++ " in chips)") :=
    map_preservedSeat _ (fun s u hu => by rw [hu.1, hu.2.1, hu.2.2]) _ _ hForall
  simp only []
  rw [hdt, except_ok_bind2]
  try simp only []
  rw [buttonSeatId_congr h sres.2 hForall, hbtn, except_ok_bind2]
  try simp only []
  rw [hante, except_ok_bind2]
  try simp only []
  rw [hbb, except_ok_bind2]
  try simp only []
  rw [hmsb, except_ok_bind2]
  try simp only []
  rw [hpf, except_ok_bind2]
  try simp only []
  rw [flopSection_seats, hflop, except_ok_bind2]
  try simp only []
  rw [turnSection_seats, hturn, except_ok_bind2]
  try simp only []
  rw [riverSection_seats, hriv, except_ok_bind2]
  try simp only []
  rw [hsd, except_ok_bind2]
  try simp only []
  rw [secondShowdownSection_seats, hsd2, except_ok_bind2]
  try simp only []
  rw [summarizeSeats_stable h.board h.run_it_twice_board h.run_it_twice h.seats
    sres hsres, except_ok_bind2]
  try simp only []
  rw [hmap]
  rfl

theorem seededRand64_lt (s : String) : seededRand64 s < 18446744073709551616 := by
  unfold seededRand64
  have hstep : ∀ (l : List Char) (a : Nat), a < 18446744073709551616 →
      l.foldl (fun a c =>
        (a * 6364136223846793005 + c.toNat + 1442695040888963407) %
          18446744073709551616) a < 18446744073709551616 := by
    intro l
    induction l with
    | nil => exact fun a ha => ha
    | cons c l ih =>
        intro a ha
        have hm : (a * 6364136223846793005 + c.toNat + 1442695040888963407) %
            18446744073709551616 < 18446744073709551616 :=
          Nat.mod_lt _ (by decide)
        rw [List.foldl_cons]
        exact ih _ hm
  exact hstep s.data 0 (by decide)

set_option maxHeartbeats 4000000 in
/-- C7: with the same non-empty `file_path_seed` (and the same currency,
symbol and timezone), a second call of `format_as_pokerstars_hand` on the
hand left behind by a first call reproduces the first call's output lines
exactly (and leaves the hand unchanged), independently of the entropy
either call would draw for an unseeded generator; the 64-bit hand
identifier in the header line is a deterministic function of the file path
stem and the hand number alone, below `2^64`. -/
theorem C7_format_deterministic (h : Hand) (cur sym tz fps : String) (e1 e2 : Nat)
    (hfps : fps ≠ "") (L1 : List String) (h1 : Hand)
    (hok1 : format_as_pokerstars_hand h cur sym tz fps e1 = .ok (L1, h1))
    (L2 : List String) (h2 : Hand)
    (hok2 : format_as_pokerstars_hand h1 cur sym tz fps e2 = .ok (L2, h2)) :
    L2 = L1 ∧ h2 = h1 ∧
      L1.headD "" = "PokerStars Hand #" ++
        toString (seededRand64 (pathStem fps ++ "-" ++ toString h.hand_number)) ++
        ": " ++ optStr h.hand_type ++ " (" ++
        (sym ++ formatAmount h.small_blind_amount) ++ "/" ++
        (sym ++ formatAmount h.big_blind_amount) ++ " " ++ cur ++ ") - " ++
        strftimePokerStars (h.hand_start_datetime.getD "") tz ∧
      seededRand64 (pathStem fps ++ "-" ++ toString h.hand_number) <
        18446744073709551616 := by
  have hstable := format_stable h cur sym tz fps e1 e2 hfps L1 h1 hok1
  have hpair := Except.ok.inj (hstable.symm.trans hok2)
  injection hpair with hL hH
  refine ⟨hL.symm, hH.symm, ?_, seededRand64_lt _⟩
  have hfb : (fps == "") = false := beq_eq_false_iff_ne.mpr hfps
  unfold format_as_pokerstars_hand at hok1
  rw [hfb, if_neg Bool.false_ne_true] at hok1
  obtain ⟨dt, hdt, hok1⟩ := except_bind_ok3 _ _ _ hok1
  obtain ⟨btn, hbtn, hok1⟩ := except_bind_ok3 _ _ _ hok1
  obtain ⟨anteL, hante, hok1⟩ := except_bind_ok3 _ _ _ hok1
  obtain ⟨bbL, hbb, hok1⟩ := except_bind_ok3 _ _ _ hok1
  obtain ⟨msbL, hmsb, hok1⟩ := except_bind_ok3 _ _ _ hok1
  obtain ⟨pfL, hpf, hok1⟩ := except_bind_ok3 _ _ _ hok1
  obtain ⟨flopL, hflop, hok1⟩ := except_bind_ok3 _ _ _ hok1
  obtain ⟨turnL, hturn, hok1⟩ := except_bind_ok3 _ _ _ hok1
  obtain ⟨rivL, hriv, hok1⟩ := except_bind_ok3 _ _ _ hok1
  obtain ⟨sdL, hsd, hok1⟩ := except_bind_ok3 _ _ _ hok1
  obtain ⟨sd2L, hsd2, hok1⟩ := except_bind_ok3 _ _ _ hok1
  obtain ⟨sres, hsres, hok1⟩ := except_bind_ok3 _ _ _ hok1
  cases hok1
  simp only [List.cons_append, List.nil_append, List.headD]
  rw [req_ok _ _ _ hdt]
  rfl

def c7Player : Player :=
  { player_name := "Alice", player_id := "a1", player_name_with_id := "Alice @ a1" }

/-- A one-seat hand with a dealer, as left by a minimal parse. -/
def c7Hand : Hand :=
  { hand_type := some "Hold'em No Limit",
    hand_start_datetime := some "2022-01-01T00:00:00.000",
    hand_number := 1,
    seats := [{ seat_number := 1, seat_player := c7Player, stack_size := 100 }],
    dealer := some c7Player }

set_option maxRecDepth 40000 in
/-- Witness for C7 on a concrete one-seat hand and the seed `log.txt`. -/
theorem C7_format_deterministic_witness :
    ((format_as_pokerstars_hand
        ((format_as_pokerstars_hand c7Hand "USD" "$" "GMT" "log.txt" 0).toOption.getD
          ([], {})).2 "USD" "$" "GMT" "log.txt" 1).toOption.getD ([], {})).1 =
      ((format_as_pokerstars_hand c7Hand "USD" "$" "GMT" "log.txt" 0).toOption.getD
        ([], {})).1 :=
  (C7_format_deterministic c7Hand "USD" "$" "GMT" "log.txt" 0 1 (by decide)
    ((format_as_pokerstars_hand c7Hand "USD" "$" "GMT" "log.txt" 0).toOption.getD
      ([], {})).1
    ((format_as_pokerstars_hand c7Hand "USD" "$" "GMT" "log.txt" 0).toOption.getD
      ([], {})).2 (by rfl)
    ((format_as_pokerstars_hand
        ((format_as_pokerstars_hand c7Hand "USD" "$" "GMT" "log.txt" 0).toOption.getD
          ([], {})).2 "USD" "$" "GMT" "log.txt" 1).toOption.getD ([], {})).1
    ((format_as_pokerstars_hand
        ((format_as_pokerstars_hand c7Hand "USD" "$" "GMT" "log.txt" 0).toOption.getD
          ([], {})).2 "USD" "$" "GMT" "log.txt" 1).toOption.getD ([], {})).2
    (by rfl)).1
